import Mathlib

/-!
Verification development for the `openapi-transformer-base` package: a base
class for traversing or transforming OpenAPI 2.x / 3.x documents.  The
definitions below are a shallow embedding of `index.js` (the
`OpenApiTransformerBase` class together with the module-level helpers
`transformMapLike` and the HTTP-method set) and of `visit.js` (the
path-tracking wrapper) and `lib/to-json-pointer.js` (the JSON Pointer
encoder).  JavaScript objects are modelled as ordered association lists,
arrays as lists of optional values (`none` models a sparse-array hole),
exceptions as an `Except` layer, and the mutable per-instance
`transformPath` array together with the warning hook as threaded state.
-/

/-- JSON-compatible JavaScript value tree, as traversed by the transformer.
`undef` is the JavaScript value `undefined`, distinct from `null`.
Arrays are lists of slots; a `none` slot models a sparse-array hole
(an index with no element), while `some Json.undef` models an element
whose value is `undefined`.  Objects are ordered association lists of
own enumerable string-keyed properties (JavaScript objects never hold
duplicate keys; lists with duplicate keys are outside the image of any
actual document). -/
inductive Json where
  | undef : Json
  | null : Json
  | bool (b : Bool) : Json
  | num (n : Int) : Json
  | str (s : String) : Json
  | arr (elems : List (Option Json)) : Json
  | obj (entries : List (String × Json)) : Json

/-- Source `j === undefined` in JavaScript. -/
def Json.isUndefined : Json → Bool
  | .undef => true
  | _ => false

/-- Source `j === null` in JavaScript. -/
def Json.isNull : Json → Bool
  | .null => true
  | _ => false

/-- Source `Array.isArray(j)` in JavaScript. -/
def Json.isArr : Json → Bool
  | .arr _ => true
  | _ => false

/-- Source `typeof j === 'boolean'` in JavaScript. -/
def Json.isBool : Json → Bool
  | .bool _ => true
  | _ => false

/-- Source `typeof j === 'object'` in JavaScript: true for plain objects, arrays
and `null`. -/
def Json.typeofIsObject : Json → Bool
  | .null => true
  | .arr _ => true
  | .obj _ => true
  | _ => false

/-- The guard `typeof j !== 'object' || j === null || Array.isArray(j)`
used by most transform methods: true exactly when `j` is not a plain
(non-null, non-array) object. -/
def nonObjectGuard (j : Json) : Bool :=
  !j.typeofIsObject || j.isNull || j.isArr

/-- JavaScript truthiness (`if (j)`): false for `undefined`, `null`,
`false`, `0` and the empty string. -/
def jsTruthy : Json → Bool
  | .undef => false
  | .null => false
  | .bool b => b
  | .num n => n != 0
  | .str s => s != ""
  | _ => true

/-- First binding of a key in an association list (JavaScript objects have
unique keys, so this is the binding). -/
def lookupFirst : List (String × Json) → String → Option Json
  | [], _ => none
  | (k, v) :: rest, key => if k = key then some v else lookupFirst rest key

/-- JavaScript property read `j[key]`: the value of the own property, or
`undefined` when the key is absent or the receiver is not a plain object.
(The modelled code only reads properties after guarding that the receiver
is an object, except for array receivers where the read fields are never
index keys and hence absent.) -/
def jsGet (j : Json) (key : String) : Json :=
  match j with
  | .obj entries => (lookupFirst entries key).getD Json.undef
  | _ => Json.undef

/-- Replace the value at the first binding of `key`, preserving entry
order; append when the key is absent (JavaScript assignment semantics). -/
def setFirst : List (String × Json) → String → Json → List (String × Json)
  | [], key, v => [(key, v)]
  | (k, w) :: rest, key, v =>
    if k = key then (k, v) :: rest else (k, w) :: setFirst rest key v

/-- JavaScript property write `j[key] = v` on a plain object (returns the
updated object; non-objects are returned unchanged — the modelled code
only writes to objects). -/
def jsSet (j : Json) (key : String) (v : Json) : Json :=
  match j with
  | .obj entries => .obj (setFirst entries key v)
  | _ => j

/-- Keys of an object's entry list. -/
def entryKeys (entries : List (String × Json)) : List String :=
  entries.map Prod.fst

/-- No duplicate keys (boolean, for executability). -/
def nodupKeys : List String → Bool
  | [] => true
  | k :: rest => !rest.contains k && nodupKeys rest

mutual

/-- Structural size of a value, used to bound the recursion depth of the
traversal (each recursive call of the engine receives a strictly smaller
value). -/
def Json.size : Json → Nat
  | .undef => 1
  | .null => 1
  | .bool _ => 1
  | .num _ => 1
  | .str _ => 1
  | .arr elems => 1 + sizeElems elems
  | .obj entries => 1 + sizeEntries entries

/-- Size of an array's slot list. -/
def sizeElems : List (Option Json) → Nat
  | [] => 0
  | none :: rest => 1 + sizeElems rest
  | some j :: rest => 1 + Json.size j + sizeElems rest

/-- Size of an object's entry list. -/
def sizeEntries : List (String × Json) → Nat
  | [] => 0
  | (_, j) :: rest => 1 + Json.size j + sizeEntries rest

end

mutual

/-- Well-formedness of a value as the image of an actual JavaScript value:
every object in the tree has pairwise distinct keys. -/
def Json.wf : Json → Bool
  | .undef => true
  | .null => true
  | .bool _ => true
  | .num _ => true
  | .str _ => true
  | .arr elems => wfElems elems
  | .obj entries => nodupKeys (entryKeys entries) && wfEntries entries

/-- Well-formedness of an array's slot list. -/
def wfElems : List (Option Json) → Bool
  | [] => true
  | none :: rest => wfElems rest
  | some j :: rest => Json.wf j && wfElems rest

/-- Well-formedness of an object's entry list. -/
def wfEntries : List (String × Json) → Bool
  | [] => true
  | (_, j) :: rest => Json.wf j && wfEntries rest

end

/-- One global-replace pass over a character list: each occurrence of the
single-character needle is replaced by `repl`.  Models both
`String.prototype.replace` with a global single-character regex
(`visit.js`) and `String.prototype.replaceAll` with a single-character
pattern (`lib/to-json-pointer.js`); the two files implement the same
escape. -/
def replaceEach (needle : Char) (repl : List Char) : List Char → List Char
  | [] => []
  | c :: rest =>
    (if c = needle then repl else [c]) ++ replaceEach needle repl rest

/-- Escape one property name for use in a JSON Pointer:
`p.replaceAll('~', '~0').replaceAll('/', '~1')`. -/
def escapeName (p : String) : String :=
  String.mk (replaceEach '/' ['~', '1'] (replaceEach '~' ['~', '0'] p.data))

/-- Source `toJsonPointer(propPath)` from `visit.js` / `lib/to-json-pointer.js`:
`'/' + propPath.map(escape).join('/')`. -/
def toJsonPointer (propPath : List String) : String :=
  "/" ++ String.intercalate "/" (propPath.map escapeName)

/-- Escape per the specification's words: applied left-to-right per
character, `~` becomes `~0` and `/` becomes `~1`. -/
def escapeNameSpec (p : String) : String :=
  String.mk (p.data.foldr
    (fun c acc =>
      (if c = '~' then ['~', '0']
       else if c = '/' then ['~', '1']
       else [c]) ++ acc)
    [])

/-- Pointer encoder per the specification's words, for comparison with the
transcription `toJsonPointer`. -/
def toJsonPointerSpec (propPath : List String) : String :=
  "/" ++ String.intercalate "/" (propPath.map escapeNameSpec)

/-- A thrown `Error` instance: its `message` and its own `transformPath`
property (`none` when the error object has no own `transformPath`). -/
structure JsError where
  message : String
  transformPath : Option (List String)

/-- A thrown JavaScript value: an `Error` instance, a non-`Error` value,
or the artificial marker used when the modelled recursion fuel runs out
(the source recursion is unbounded; every theorem supplies enough fuel). -/
inductive Thrown where
  | err (e : JsError) : Thrown
  | val (v : Json) : Thrown
  | fuelExhausted : Thrown

/-- The mutable state of one transformer instance during a traversal: the
`transformPath` property-name stack, and the log of messages passed to the
`warn` reporting hook. -/
structure TState where
  path : List String
  warns : List String

/-- Computation over the transformer state which may throw.  On a throw
the state mutations performed so far persist (JavaScript semantics). -/
def M (α : Type) : Type := TState → Except Thrown α × TState

/-- Return a value, leaving the state unchanged. -/
def mPure {α : Type} (a : α) : M α := fun s => (Except.ok a, s)

/-- Sequence two computations; a thrown value propagates. -/
def mBind {α β : Type} (c : M α) (f : α → M β) : M β := fun s =>
  match c s with
  | (Except.ok a, s1) => f a s1
  | (Except.error e, s1) => (Except.error e, s1)

instance : Monad M where
  pure := mPure
  bind := mBind

/-- Source `throw t`. -/
def mThrow {α : Type} (t : Thrown) : M α := fun s => (Except.error t, s)

/-- A call of the `warn` reporting hook.  The default hook logs the
message (and the contextual values and current pointer, not modelled) to
a debug channel; the log records the message of each call. -/
def warnM (message : String) : M Unit := fun s =>
  (Except.ok (), { s with warns := s.warns ++ [message] })

/-- Source `visit(transformer, method, propName, ...args)` from `visit.js`:
push `propName` on `transformPath`, call the method, and in the `finally`
phase pop one entry.  A propagating `Error` without an own `transformPath`
property is annotated with a snapshot of the current stack and the
pointer is appended to its message; other thrown values pass through
unchanged.  On the success path the popped entry is asserted to equal
`propName` (`assert.strictEqual` throws an `AssertionError`, itself an
`Error` with no own `transformPath`, when it does not); when an exception
is already propagating the assertion is skipped so as not to clobber
it. -/
def visitM (method : Json → M Json) (propName : String) (arg : Json) :
    M Json := fun s =>
  match method arg { s with path := s.path ++ [propName] } with
  | (Except.ok result, s2) =>
    let popProp := s2.path.getLast?
    let s3 := { s2 with path := s2.path.dropLast }
    if popProp = some propName then
      (Except.ok result, s3)
    else
      (Except.error (Thrown.err
        { message := "AssertionError: popProp === propName"
          transformPath := none }), s3)
  | (Except.error e, s2) =>
    let e' :=
      match e with
      | Thrown.err er =>
        match er.transformPath with
        | none =>
          Thrown.err
            { message := er.message ++ " (while transforming "
                ++ toJsonPointer s2.path ++ ")"
              transformPath := some s2.path }
        | some _ => e
      | _ => e
    (Except.error e', { s2 with path := s2.path.dropLast })

/-- Result of one transform-method body, distinguishing the two kinds of
`return` in the source: `arg` is `return <the argument object itself>`
(the same reference, no allocation), `new j` returns the value `j`
(built by an object literal / `Array.prototype.map`). -/
inductive Ret where
  | arg : Ret
  | new (j : Json) : Ret

/-- The value a body's `Ret` denotes, given the body's argument. -/
def deref (arg : Json) : Ret → Json
  | .arg => arg
  | .new j => j

/-- View a body as a plain `value -> value` method. -/
def methodOf (body : Json → M Ret) : Json → M Json := fun j =>
  mBind (body j) (fun r => mPure (deref j r))

/-- The `for (const [propName, propValue] of Object.entries(obj))` loop:
left-to-right fold of a monadic step over the entry list. -/
def foldEntriesM (step : Json → (String × Json) → M Json) :
    Json → List (String × Json) → M Json
  | acc, [] => mPure acc
  | acc, e :: rest => mBind (step acc e) (fun acc' => foldEntriesM step acc' rest)

/-- Source `arr.map(callback)` over the slot list: the callback runs for every
present element (including elements whose value is `undefined`);
sparse holes are skipped by `map` and remain holes in the result. -/
def mapArrayM (f : Json → M Json) : List (Option Json) → M (List (Option Json))
  | [] => mPure []
  | none :: rest => mBind (mapArrayM f rest) (fun rest' => mPure (none :: rest'))
  | some v :: rest =>
    mBind (f v) (fun v' =>
      mBind (mapArrayM f rest) (fun rest' => mPure (some v' :: rest')))

/-- Source `transformMapLike(obj, transform, logName, skipExtensions)` from
`index.js`.  The source has two successive guard statements (non-object
or `null`; then `Array.isArray`) which warn the same message and return
the argument; they are rendered as the single non-object branch of the
match.  Otherwise a spread copy of `obj` is updated: each entry whose
value is not `undefined` and which passes the extension policy is
replaced by the visit-wrapped transform of its value. -/
def transformMapLikeM (obj : Json) (transform : Json → M Json)
    (logName : String) (skipExtensions : Bool) : M Ret :=
  match obj with
  | .obj entries =>
    mBind
      (foldEntriesM
        (fun acc e =>
          if !e.2.isUndefined
              && (!skipExtensions || !e.1.startsWith "x-") then
            mBind (visitM transform e.1 e.2)
              (fun v => mPure (jsSet acc e.1 v))
          else
            mPure acc)
        (Json.obj entries) entries)
      (fun newObj => mPure (Ret.new newObj))
  | _ =>
    mBind (warnM ("Ignoring non-object " ++ logName))
      (fun _ => mPure Ret.arg)

/-- Source `transformMapLike` as a `value -> value` function (as used when it is
passed to `visit`). -/
def transformMapLikeFn (transform : Json → M Json) (logName : String)
    (skipExtensions : Bool) (obj : Json) : M Json :=
  mBind (transformMapLikeM obj transform logName skipExtensions)
    (fun r => mPure (deref obj r))

/-- Source `transformArray(arr, transform)`: non-arrays warn
`'Ignoring non-Array'` and are returned unchanged; otherwise
`arr.map(transform, this)`. -/
def transformArrayM (arr : Json) (transform : Json → M Json) : M Ret :=
  match arr with
  | .arr elems =>
    mBind (mapArrayM transform elems)
      (fun elems' => mPure (Ret.new (Json.arr elems')))
  | _ =>
    mBind (warnM "Ignoring non-Array") (fun _ => mPure Ret.arg)

/-- The field pattern
`if (x.name !== undefined) { newX.name = visit(this, method, 'name', x.name); }`
shared by most transform methods: `src` is the argument object, `acc` the
copy being updated. -/
def visitField (src : Json) (name : String) (m : Json → M Json)
    (acc : Json) : M Json :=
  if !(jsGet src name).isUndefined then
    mBind (visitM m name (jsGet src name)) (fun v => mPure (jsSet acc name v))
  else
    mPure acc

/-- The field pattern
`newX.name = visit(this, this.transformMap, 'name', x.name, handler)`:
the extra `visit` arguments are applied to the method inside the
wrapper. -/
def visitMapField (tMap : Json → (Json → M Json) → M Json) (src : Json)
    (name : String) (handler : Json → M Json) (acc : Json) : M Json :=
  if !(jsGet src name).isUndefined then
    mBind (visitM (fun v => tMap v handler) name (jsGet src name))
      (fun v => mPure (jsSet acc name v))
  else
    mPure acc

/-- The field pattern
`newX.name = this.transformArray(x.name, handler)` (no `visit` wrapper:
the adapter is called directly). -/
def arrayField (tArr : Json → (Json → M Json) → M Json) (src : Json)
    (name : String) (handler : Json → M Json) (acc : Json) : M Json :=
  if !(jsGet src name).isUndefined then
    mBind (tArr (jsGet src name) handler) (fun v => mPure (jsSet acc name v))
  else
    mPure acc

/-- The truthiness-guarded field pattern of `transformOAuthFlows`:
`if (flows.name) { newFlows.name = visit(this, method, 'name', flows.name); }`. -/
def visitFieldTruthy (src : Json) (name : String) (m : Json → M Json)
    (acc : Json) : M Json :=
  if jsTruthy (jsGet src name) then
    mBind (visitM m name (jsGet src name)) (fun v => mPure (jsSet acc name v))
  else
    mPure acc

/-- Source `http.METHODS` from Node.js: the HTTP method names whose lowercase
forms name Operation-valued Path Item properties. -/
def httpMethods : List String :=
  ["ACL", "BIND", "CHECKOUT", "CONNECT", "COPY", "DELETE", "GET", "HEAD",
   "LINK", "LOCK", "M-SEARCH", "MERGE", "MKACTIVITY", "MKCALENDAR", "MKCOL",
   "MOVE", "NOTIFY", "OPTIONS", "PATCH", "POST", "PROPFIND", "PROPPATCH",
   "PURGE", "PUT", "REBIND", "REPORT", "SEARCH", "SOURCE", "SUBSCRIBE",
   "TRACE", "UNBIND", "UNLINK", "UNLOCK", "UNSUBSCRIBE"]

/-- A character matched by `[0-9Xx]`. -/
def isCodeChar (c : Char) : Bool :=
  ('0' ≤ c && c ≤ '9') || c = 'X' || c = 'x'

/-- The Responses-key pattern `/^[1-5][0-9Xx][0-9Xx]$/`. -/
def isResponseStatusKey (prop : String) : Bool :=
  match prop.data with
  | [c0, c1, c2] => ('1' ≤ c0 && c0 ≤ '5') && isCodeChar c1 && isCodeChar c2
  | _ => false

/-- The methods of one `OpenApiTransformerBase` instance.  Method bodies
receive the instance as an explicit parameter, so `this.transformX`
dispatches through this record exactly as JavaScript dispatches through
the instance (late binding: a subclass override replaces the field seen
by every default body). -/
structure Transformer where
  transformArray : Json → (Json → M Json) → M Json
  transformMap : Json → (Json → M Json) → M Json
  transformDiscriminator : Json → M Json
  transformExample : Json → M Json
  transformExample3 : Json → M Json
  transformExternalDocs : Json → M Json
  transformXml : Json → M Json
  transformSchema : Json → M Json
  transformSchemaProperties : Json → M Json
  transformItems : Json → M Json
  transformHeader : Json → M Json
  transformEncoding : Json → M Json
  transformLink : Json → M Json
  transformMediaType : Json → M Json
  transformResponse : Json → M Json
  transformResponses : Json → M Json
  transformCallback : Json → M Json
  transformRequestBody : Json → M Json
  transformParameter : Json → M Json
  transformOperation : Json → M Json
  transformPathItem : Json → M Json
  transformPaths : Json → M Json
  transformComponents : Json → M Json
  transformServerVariable : Json → M Json
  transformServer : Json → M Json
  transformOAuthFlow : Json → M Json
  transformOAuthFlows : Json → M Json
  transformSecurityScheme : Json → M Json
  transformSecurityRequirement : Json → M Json
  transformTag : Json → M Json
  transformContact : Json → M Json
  transformLicense : Json → M Json
  transformInfo : Json → M Json
  transformOpenApi : Json → M Json

/-- Source `transformDiscriminator(discriminator) { return discriminator; }` -/
def transformDiscriminatorM (_discriminator : Json) : M Ret := mPure Ret.arg

/-- Source `transformExample(example) { return example; }` (OpenAPI 2.0). -/
def transformExampleM (_example : Json) : M Ret := mPure Ret.arg

/-- Source `transformExample3(example) { return example; }` (OpenAPI 3.x). -/
def transformExample3M (_example : Json) : M Ret := mPure Ret.arg

/-- Source `transformExternalDocs(externalDocs) { return externalDocs; }` -/
def transformExternalDocsM (_externalDocs : Json) : M Ret := mPure Ret.arg

/-- Source `transformXml(xml) { return xml; }` -/
def transformXmlM (_xml : Json) : M Ret := mPure Ret.arg

/-- Source `transformServerVariable(serverVariable) { return serverVariable; }` -/
def transformServerVariableM (_serverVariable : Json) : M Ret := mPure Ret.arg

/-- Source `transformOAuthFlow(flow) { return flow; }` -/
def transformOAuthFlowM (_flow : Json) : M Ret := mPure Ret.arg

/-- Source `transformSecurityRequirement(securityRequirement)
{ return securityRequirement; }` -/
def transformSecurityRequirementM (_securityRequirement : Json) : M Ret :=
  mPure Ret.arg

/-- Source `transformContact(contact) { return contact; }` -/
def transformContactM (_contact : Json) : M Ret := mPure Ret.arg

/-- Source `transformLicense(license) { return license; }` -/
def transformLicenseM (_license : Json) : M Ret := mPure Ret.arg

/-- Source `transformSchema(schema)`: the Schema Object traversal.  Non-object
values warn (unless boolean: `true`/`false` are valid schemas) and are
returned unchanged.  Otherwise a spread copy is updated field by field in
source order.  Note the `['if', 'then', 'else', 'not']` loop calls
`visit` with the literal string `'subSchema'` as the property name while
assigning to `newSchema[schemaProp]`. -/
def transformSchemaM (t : Transformer) (schema : Json) : M Ret :=
  if nonObjectGuard schema then
    if !schema.isBool then
      mBind (warnM "Ignoring non-object Schema") (fun _ => mPure Ret.arg)
    else
      mPure Ret.arg
  else
    mBind (visitField schema "discriminator" t.transformDiscriminator schema)
    (fun newSchema =>
    mBind (visitField schema "externalDocs" t.transformExternalDocs newSchema)
    (fun newSchema =>
    mBind (visitField schema "xml" t.transformXml newSchema)
    (fun newSchema =>
    mBind
      (if !(jsGet schema "items").isUndefined then
        if (jsGet schema "items").isArr then
          mBind (t.transformArray (jsGet schema "items") t.transformSchema)
            (fun v => mPure (jsSet newSchema "items" v))
        else
          mBind (visitM t.transformSchema "items" (jsGet schema "items"))
            (fun v => mPure (jsSet newSchema "items" v))
      else
        mPure newSchema)
    (fun newSchema =>
    mBind
      (foldEntriesM
        (fun acc e =>
          if !(jsGet schema e.1).isUndefined then
            mBind (visitM t.transformSchema "subSchema" (jsGet schema e.1))
              (fun v => mPure (jsSet acc e.1 v))
          else
            mPure acc)
        newSchema
        [("if", Json.undef), ("then", Json.undef), ("else", Json.undef),
         ("not", Json.undef)])
    (fun newSchema =>
    mBind (visitField schema "properties" t.transformSchemaProperties
      newSchema)
    (fun newSchema =>
    mBind (visitField schema "patternProperties"
      (transformMapLikeFn t.transformSchema "Schema" false) newSchema)
    (fun newSchema =>
    mBind (visitField schema "unevaluatedProperties" t.transformSchema
      newSchema)
    (fun newSchema =>
    mBind (visitField schema "propertyNames" t.transformSchema newSchema)
    (fun newSchema =>
    mBind
      (foldEntriesM
        (fun acc e =>
          if !(jsGet schema e.1).isUndefined then
            mBind (visitM t.transformSchema e.1 (jsGet schema e.1))
              (fun v => mPure (jsSet acc e.1 v))
          else
            mPure acc)
        newSchema
        [("additionalItems", Json.undef), ("additionalProperties", Json.undef)])
    (fun newSchema =>
    mBind (visitField schema "unevaluatedItems" t.transformSchema newSchema)
    (fun newSchema =>
    mBind (visitField schema "dependentSchemas"
      (transformMapLikeFn t.transformSchema "Schema" false) newSchema)
    (fun newSchema =>
    mBind (visitField schema "contains" t.transformSchema newSchema)
    (fun newSchema =>
    mBind
      (foldEntriesM
        (fun acc e =>
          if !(jsGet schema e.1).isUndefined then
            mBind
              (visitM (fun v => t.transformArray v t.transformSchema) e.1
                (jsGet schema e.1))
              (fun v => mPure (jsSet acc e.1 v))
          else
            mPure acc)
        newSchema
        [("allOf", Json.undef), ("anyOf", Json.undef), ("oneOf", Json.undef)])
    (fun newSchema =>
    mPure (Ret.new newSchema)))))))))))))))

/-- Source `transformSchemaProperties(properties)`:
`transformMapLike.call(this, properties, this.transformSchema,
'Schema properties')` (no `skipExtensions`). -/
def transformSchemaPropertiesM (t : Transformer) (properties : Json) :
    M Ret :=
  transformMapLikeM properties t.transformSchema "Schema properties" false

/-- Source `transformItems(items)`: OpenAPI 2.0 Items Object; recurses on its
`items` property only, returning the argument itself when that property
is `undefined`. -/
def transformItemsM (t : Transformer) (items : Json) : M Ret :=
  if nonObjectGuard items then
    mBind (warnM "Ignoring non-object Items") (fun _ => mPure Ret.arg)
  else if (jsGet items "items").isUndefined then
    mPure Ret.arg
  else
    mBind (visitM t.transformItems "items" (jsGet items "items"))
      (fun v => mPure (Ret.new (jsSet items "items" v)))

/-- Source `transformHeader(header)`: recurses on `items` (Items) and `schema`
(Schema). -/
def transformHeaderM (t : Transformer) (header : Json) : M Ret :=
  if nonObjectGuard header then
    mBind (warnM "Ignoring non-object Header") (fun _ => mPure Ret.arg)
  else
    mBind (visitField header "items" t.transformItems header)
    (fun newHeader =>
    mBind (visitField header "schema" t.transformSchema newHeader)
    (fun newHeader =>
    mPure (Ret.new newHeader)))

/-- Source `transformEncoding(encoding)`: recurses on `headers`
(Map[string, Header]), returning the argument itself when `headers` is
`undefined`. -/
def transformEncodingM (t : Transformer) (encoding : Json) : M Ret :=
  if nonObjectGuard encoding then
    mBind (warnM "Ignoring non-object Encoding") (fun _ => mPure Ret.arg)
  else if (jsGet encoding "headers").isUndefined then
    mPure Ret.arg
  else
    mBind
      (visitM (fun v => t.transformMap v t.transformHeader) "headers"
        (jsGet encoding "headers"))
      (fun v => mPure (Ret.new (jsSet encoding "headers" v)))

/-- Source `transformLink(link)`: recurses on `server`, returning the argument
itself when `server` is `undefined`. -/
def transformLinkM (t : Transformer) (link : Json) : M Ret :=
  if nonObjectGuard link then
    mBind (warnM "Ignoring non-object Link") (fun _ => mPure Ret.arg)
  else if (jsGet link "server").isUndefined then
    mPure Ret.arg
  else
    mBind (visitM t.transformServer "server" (jsGet link "server"))
      (fun v => mPure (Ret.new (jsSet link "server" v)))

/-- Source `transformMediaType(mediaType)`: recurses on `schema`, `examples`
(Map[string, Example3]) and `encoding` (Map[string, Encoding]). -/
def transformMediaTypeM (t : Transformer) (mediaType : Json) : M Ret :=
  if nonObjectGuard mediaType then
    mBind (warnM "Ignoring non-object Media Type") (fun _ => mPure Ret.arg)
  else
    mBind (visitField mediaType "schema" t.transformSchema mediaType)
    (fun newMediaType =>
    mBind (visitMapField t.transformMap mediaType "examples"
      t.transformExample3 newMediaType)
    (fun newMediaType =>
    mBind (visitMapField t.transformMap mediaType "encoding"
      t.transformEncoding newMediaType)
    (fun newMediaType =>
    mPure (Ret.new newMediaType))))

/-- Source `transformResponse(response)`: recurses on `headers`, `content`,
`links` (Maps), `schema` (Schema) and `examples` (the OpenAPI 2.0
Example Object handler, applied directly — not per entry). -/
def transformResponseM (t : Transformer) (response : Json) : M Ret :=
  if nonObjectGuard response then
    mBind (warnM "Ignoring non-object Response") (fun _ => mPure Ret.arg)
  else
    mBind (visitMapField t.transformMap response "headers" t.transformHeader
      response)
    (fun newResponse =>
    mBind (visitMapField t.transformMap response "content"
      t.transformMediaType newResponse)
    (fun newResponse =>
    mBind (visitMapField t.transformMap response "links" t.transformLink
      newResponse)
    (fun newResponse =>
    mBind (visitField response "schema" t.transformSchema newResponse)
    (fun newResponse =>
    mBind (visitField response "examples" t.transformExample newResponse)
    (fun newResponse =>
    mPure (Ret.new newResponse))))))

/-- Source `transformParameter(parameter)`: recurses on `content` (Map),
`schema`, `items` and `examples` (Map). -/
def transformParameterM (t : Transformer) (parameter : Json) : M Ret :=
  if nonObjectGuard parameter then
    mBind (warnM "Ignoring non-object Parameter") (fun _ => mPure Ret.arg)
  else
    mBind (visitMapField t.transformMap parameter "content"
      t.transformMediaType parameter)
    (fun newParameter =>
    mBind (visitField parameter "schema" t.transformSchema newParameter)
    (fun newParameter =>
    mBind (visitField parameter "items" t.transformItems newParameter)
    (fun newParameter =>
    mBind (visitMapField t.transformMap parameter "examples"
      t.transformExample3 newParameter)
    (fun newParameter =>
    mPure (Ret.new newParameter)))))

/-- Source `transformResponses(responses)`: only `default`, HTTP status codes
and status-code patterns hold Response Objects; other keys (except
`$ref` and extensions) are diagnosed as unrecognized.  The guard is
`!responses || typeof responses !== 'object' || isArray(responses)`
(truthiness, not a `null` comparison). -/
def transformResponsesM (t : Transformer) (responses : Json) : M Ret :=
  if !jsTruthy responses || !responses.typeofIsObject || responses.isArr then
    mBind (warnM "Ignoring non-object Responses") (fun _ => mPure Ret.arg)
  else
    match responses with
    | .obj entries =>
      mBind
        (foldEntriesM
          (fun acc e =>
            if e.1 = "default" || isResponseStatusKey e.1 then
              if !(jsGet responses e.1).isUndefined then
                mBind (visitM t.transformResponse e.1 (jsGet responses e.1))
                  (fun v => mPure (jsSet acc e.1 v))
              else
                mPure acc
            else if e.1 != "$ref" && !e.1.startsWith "x-" then
              mBind (warnM "Ignoring unrecognized property of Responses")
                (fun _ => mPure acc)
            else
              mPure acc)
          (Json.obj entries) entries)
        (fun newResponses => mPure (Ret.new newResponses))
    | _ => mPure Ret.arg

/-- Source `transformCallback(callback)`:
`transformMapLike.call(this, callback, this.transformPathItem,
'Callback', true)` — extension keys are skipped (a reserved-marker key
at this position could hold any kind). -/
def transformCallbackM (t : Transformer) (callback : Json) : M Ret :=
  transformMapLikeM callback t.transformPathItem "Callback" true

/-- Source `transformRequestBody(requestBody)`: recurses on `content` (Map),
returning the argument itself when `content` is `undefined`. -/
def transformRequestBodyM (t : Transformer) (requestBody : Json) : M Ret :=
  if nonObjectGuard requestBody then
    mBind (warnM "Ignoring non-object Request Body") (fun _ => mPure Ret.arg)
  else if (jsGet requestBody "content").isUndefined then
    mPure Ret.arg
  else
    mBind
      (visitM (fun v => t.transformMap v t.transformMediaType) "content"
        (jsGet requestBody "content"))
      (fun v => mPure (Ret.new (jsSet requestBody "content" v)))

/-- Source `transformOperation(operation)`: recurses on `externalDocs`,
`parameters` (array), `requestBody`, `responses`, `callbacks` (Map),
`security` (array) and `servers` (array). -/
def transformOperationM (t : Transformer) (operation : Json) : M Ret :=
  if nonObjectGuard operation then
    mBind (warnM "Ignoring non-object Operation") (fun _ => mPure Ret.arg)
  else
    mBind (visitField operation "externalDocs" t.transformExternalDocs
      operation)
    (fun newOperation =>
    mBind (arrayField t.transformArray operation "parameters"
      t.transformParameter newOperation)
    (fun newOperation =>
    mBind (visitField operation "requestBody" t.transformRequestBody
      newOperation)
    (fun newOperation =>
    mBind (visitField operation "responses" t.transformResponses
      newOperation)
    (fun newOperation =>
    mBind (visitMapField t.transformMap operation "callbacks"
      t.transformCallback newOperation)
    (fun newOperation =>
    mBind (arrayField t.transformArray operation "security"
      t.transformSecurityRequirement newOperation)
    (fun newOperation =>
    mBind (arrayField t.transformArray operation "servers" t.transformServer
      newOperation)
    (fun newOperation =>
    mPure (Ret.new newOperation))))))))

/-- Source `transformPathItem(pathItem)`: recurses on `servers` and `parameters`
(arrays), then on every key naming an HTTP method (case-insensitively,
per `http.METHODS`); other keys outside the structural set and
extensions are diagnosed. -/
def transformPathItemM (t : Transformer) (pathItem : Json) : M Ret :=
  if nonObjectGuard pathItem then
    mBind (warnM "Ignoring non-object Path Item") (fun _ => mPure Ret.arg)
  else
    mBind (arrayField t.transformArray pathItem "servers" t.transformServer
      pathItem)
    (fun newPathItem =>
    mBind (arrayField t.transformArray pathItem "parameters"
      t.transformParameter newPathItem)
    (fun newPathItem =>
    mBind
      (match pathItem with
       | .obj entries =>
         foldEntriesM
           (fun acc e =>
             if !(jsGet pathItem e.1).isUndefined
                 && httpMethods.contains e.1.toUpper then
               mBind (visitM t.transformOperation e.1 (jsGet pathItem e.1))
                 (fun v => mPure (jsSet acc e.1 v))
             else if e.1 != "$ref" && e.1 != "description"
                 && e.1 != "parameters" && e.1 != "servers"
                 && e.1 != "summary" && !e.1.startsWith "x-" then
               mBind (warnM "Ignoring unrecognized property of Path Item")
                 (fun _ => mPure acc)
             else
               mPure acc)
           newPathItem entries
       | _ => mPure newPathItem)
    (fun newPathItem =>
    mPure (Ret.new newPathItem))))

/-- Source `transformPaths(paths)`:
`transformMapLike.call(this, paths, this.transformPathItem, 'Paths',
true)` — extension keys are skipped. -/
def transformPathsM (t : Transformer) (paths : Json) : M Ret :=
  transformMapLikeM paths t.transformPathItem "Paths" true

/-- Source `transformComponents(components)`: recurses on each Map-valued
component collection. -/
def transformComponentsM (t : Transformer) (components : Json) : M Ret :=
  if nonObjectGuard components then
    mBind (warnM "Ignoring non-object Components") (fun _ => mPure Ret.arg)
  else
    mBind (visitMapField t.transformMap components "schemas"
      t.transformSchema components)
    (fun newComponents =>
    mBind (visitMapField t.transformMap components "responses"
      t.transformResponse newComponents)
    (fun newComponents =>
    mBind (visitMapField t.transformMap components "parameters"
      t.transformParameter newComponents)
    (fun newComponents =>
    mBind (visitMapField t.transformMap components "examples"
      t.transformExample3 newComponents)
    (fun newComponents =>
    mBind (visitMapField t.transformMap components "requestBodies"
      t.transformRequestBody newComponents)
    (fun newComponents =>
    mBind (visitMapField t.transformMap components "headers"
      t.transformHeader newComponents)
    (fun newComponents =>
    mBind (visitMapField t.transformMap components "securitySchemes"
      t.transformSecurityScheme newComponents)
    (fun newComponents =>
    mBind (visitMapField t.transformMap components "links" t.transformLink
      newComponents)
    (fun newComponents =>
    mBind (visitMapField t.transformMap components "callbacks"
      t.transformCallback newComponents)
    (fun newComponents =>
    mBind (visitMapField t.transformMap components "pathItems"
      t.transformPathItem newComponents)
    (fun newComponents =>
    mPure (Ret.new newComponents)))))))))))

/-- Source `transformServer(server)`: recurses on `variables`
(Map[string, ServerVariable]), returning the argument itself when
`variables` is `undefined`. -/
def transformServerM (t : Transformer) (server : Json) : M Ret :=
  if nonObjectGuard server then
    mBind (warnM "Ignoring non-object Server") (fun _ => mPure Ret.arg)
  else if (jsGet server "variables").isUndefined then
    mPure Ret.arg
  else
    mBind
      (visitM (fun v => t.transformMap v t.transformServerVariable)
        "variables" (jsGet server "variables"))
      (fun v => mPure (Ret.new (jsSet server "variables" v)))

/-- Source `transformOAuthFlows(flows)`: recurses on the four flow fields, each
guarded by truthiness (`if (flows.implicit)`, not an `undefined`
comparison). -/
def transformOAuthFlowsM (t : Transformer) (flows : Json) : M Ret :=
  if nonObjectGuard flows then
    mBind (warnM "Ignoring non-object OAuth Flows") (fun _ => mPure Ret.arg)
  else
    mBind (visitFieldTruthy flows "implicit" t.transformOAuthFlow flows)
    (fun newFlows =>
    mBind (visitFieldTruthy flows "password" t.transformOAuthFlow newFlows)
    (fun newFlows =>
    mBind (visitFieldTruthy flows "clientCredentials" t.transformOAuthFlow
      newFlows)
    (fun newFlows =>
    mBind (visitFieldTruthy flows "authorizationCode" t.transformOAuthFlow
      newFlows)
    (fun newFlows =>
    mPure (Ret.new newFlows)))))

/-- Source `transformSecurityScheme(securityScheme)`: recurses on `flows`,
returning the argument itself when `flows` is `undefined`. -/
def transformSecuritySchemeM (t : Transformer) (securityScheme : Json) :
    M Ret :=
  if nonObjectGuard securityScheme then
    mBind (warnM "Ignoring non-object Security Scheme")
      (fun _ => mPure Ret.arg)
  else if (jsGet securityScheme "flows").isUndefined then
    mPure Ret.arg
  else
    mBind
      (visitM t.transformOAuthFlows "flows" (jsGet securityScheme "flows"))
      (fun v => mPure (Ret.new (jsSet securityScheme "flows" v)))

/-- Source `transformTag(tag)`: recurses on `externalDocs`, returning the
argument itself when `externalDocs` is `undefined`. -/
def transformTagM (t : Transformer) (tag : Json) : M Ret :=
  if nonObjectGuard tag then
    mBind (warnM "Ignoring non-object Tag") (fun _ => mPure Ret.arg)
  else if (jsGet tag "externalDocs").isUndefined then
    mPure Ret.arg
  else
    mBind
      (visitM t.transformExternalDocs "externalDocs"
        (jsGet tag "externalDocs"))
      (fun v => mPure (Ret.new (jsSet tag "externalDocs" v)))

/-- Source `transformInfo(info)`: delegates `contact` and `license` into a
spread copy `newInfo`, but the method's final statement is
`return info;`, so the constructed copy is discarded and the argument
itself is returned (transcribed faithfully; the visits and their
effects still occur). -/
def transformInfoM (t : Transformer) (info : Json) : M Ret :=
  if nonObjectGuard info then
    mBind (warnM "Ignoring non-object Info") (fun _ => mPure Ret.arg)
  else
    mBind (visitField info "contact" t.transformContact info)
    (fun newInfo =>
    mBind (visitField info "license" t.transformLicense newInfo)
    (fun _newInfo =>
    mPure Ret.arg))

/-- Source `transformOpenApi(openApi)`: the document root.  Recurses on `info`,
`servers`, the `x-ms-parameterized-host` extension's `parameters`,
`components`, `definitions`, `parameters`, `responses`, `paths`,
`x-ms-paths`, `webhooks`, `security`, `tags` and `externalDocs`, in
source order. -/
def transformOpenApiM (t : Transformer) (openApi : Json) : M Ret :=
  if nonObjectGuard openApi then
    mBind (warnM "Ignoring non-object OpenAPI") (fun _ => mPure Ret.arg)
  else
    mBind (visitField openApi "info" t.transformInfo openApi)
    (fun newOpenApi =>
    mBind (arrayField t.transformArray openApi "servers" t.transformServer
      newOpenApi)
    (fun newOpenApi =>
    mBind
      (if (jsGet openApi "x-ms-parameterized-host").typeofIsObject
          && !(jsGet openApi "x-ms-parameterized-host").isNull then
        if !(jsGet (jsGet openApi "x-ms-parameterized-host")
            "parameters").isUndefined then
          mBind
            (t.transformArray
              (jsGet (jsGet openApi "x-ms-parameterized-host") "parameters")
              t.transformParameter)
            (fun v =>
              mPure (jsSet newOpenApi "x-ms-parameterized-host"
                (jsSet (jsGet openApi "x-ms-parameterized-host")
                  "parameters" v)))
        else
          mPure newOpenApi
      else
        mPure newOpenApi)
    (fun newOpenApi =>
    mBind (visitField openApi "components" t.transformComponents newOpenApi)
    (fun newOpenApi =>
    mBind (visitMapField t.transformMap openApi "definitions"
      t.transformSchema newOpenApi)
    (fun newOpenApi =>
    mBind (visitMapField t.transformMap openApi "parameters"
      t.transformParameter newOpenApi)
    (fun newOpenApi =>
    mBind (visitMapField t.transformMap openApi "responses"
      t.transformResponse newOpenApi)
    (fun newOpenApi =>
    mBind (visitField openApi "paths" t.transformPaths newOpenApi)
    (fun newOpenApi =>
    mBind (visitField openApi "x-ms-paths" t.transformPaths newOpenApi)
    (fun newOpenApi =>
    mBind (visitMapField t.transformMap openApi "webhooks"
      t.transformPathItem newOpenApi)
    (fun newOpenApi =>
    mBind (arrayField t.transformArray openApi "security"
      t.transformSecurityRequirement newOpenApi)
    (fun newOpenApi =>
    mBind (arrayField t.transformArray openApi "tags" t.transformTag
      newOpenApi)
    (fun newOpenApi =>
    mBind (visitField openApi "externalDocs" t.transformExternalDocs
      newOpenApi)
    (fun newOpenApi =>
    mPure (Ret.new newOpenApi))))))))))))))

/-- Subclass overrides: `some f` replaces the method named by the field
at every level of the instance construction (JavaScript late binding),
`none` keeps the default body.  Only the methods overridden by the
scenarios under verification are represented. -/
structure Overrides where
  transformSchema : Option (Json → M Json) := none
  transformContact : Option (Json → M Json) := none

/-- Method stub used below recursion depth zero. -/
def fuelStubMethod : Json → M Json := fun _ => mThrow Thrown.fuelExhausted

/-- Build a transformer instance with the given overrides and recursion
fuel.  JavaScript recursion is unbounded; fuel only bounds the modelled
dynamic-dispatch depth, and every theorem supplies enough fuel for its
input.  Each level's default methods dispatch through the next level,
which carries the same overrides (late binding). -/
def mkTransformer (o : Overrides) : Nat → Transformer
  | 0 =>
    { transformArray := fun _ _ => mThrow Thrown.fuelExhausted
      transformMap := fun _ _ => mThrow Thrown.fuelExhausted
      transformDiscriminator := fuelStubMethod
      transformExample := fuelStubMethod
      transformExample3 := fuelStubMethod
      transformExternalDocs := fuelStubMethod
      transformXml := fuelStubMethod
      transformSchema := o.transformSchema.getD fuelStubMethod
      transformSchemaProperties := fuelStubMethod
      transformItems := fuelStubMethod
      transformHeader := fuelStubMethod
      transformEncoding := fuelStubMethod
      transformLink := fuelStubMethod
      transformMediaType := fuelStubMethod
      transformResponse := fuelStubMethod
      transformResponses := fuelStubMethod
      transformCallback := fuelStubMethod
      transformRequestBody := fuelStubMethod
      transformParameter := fuelStubMethod
      transformOperation := fuelStubMethod
      transformPathItem := fuelStubMethod
      transformPaths := fuelStubMethod
      transformComponents := fuelStubMethod
      transformServerVariable := fuelStubMethod
      transformServer := fuelStubMethod
      transformOAuthFlow := fuelStubMethod
      transformOAuthFlows := fuelStubMethod
      transformSecurityScheme := fuelStubMethod
      transformSecurityRequirement := fuelStubMethod
      transformTag := fuelStubMethod
      transformContact := o.transformContact.getD fuelStubMethod
      transformLicense := fuelStubMethod
      transformInfo := fuelStubMethod
      transformOpenApi := fuelStubMethod }
  | n + 1 =>
    let t := mkTransformer o n
    { transformArray := fun arr f => methodOf (fun a => transformArrayM a f) arr
      transformMap := fun obj f =>
        methodOf (fun x => transformMapLikeM x f "Map" false) obj
      transformDiscriminator := methodOf transformDiscriminatorM
      transformExample := methodOf transformExampleM
      transformExample3 := methodOf transformExample3M
      transformExternalDocs := methodOf transformExternalDocsM
      transformXml := methodOf transformXmlM
      transformSchema := o.transformSchema.getD (methodOf (transformSchemaM t))
      transformSchemaProperties := methodOf (transformSchemaPropertiesM t)
      transformItems := methodOf (transformItemsM t)
      transformHeader := methodOf (transformHeaderM t)
      transformEncoding := methodOf (transformEncodingM t)
      transformLink := methodOf (transformLinkM t)
      transformMediaType := methodOf (transformMediaTypeM t)
      transformResponse := methodOf (transformResponseM t)
      transformResponses := methodOf (transformResponsesM t)
      transformCallback := methodOf (transformCallbackM t)
      transformRequestBody := methodOf (transformRequestBodyM t)
      transformParameter := methodOf (transformParameterM t)
      transformOperation := methodOf (transformOperationM t)
      transformPathItem := methodOf (transformPathItemM t)
      transformPaths := methodOf (transformPathsM t)
      transformComponents := methodOf (transformComponentsM t)
      transformServerVariable := methodOf transformServerVariableM
      transformServer := methodOf (transformServerM t)
      transformOAuthFlow := methodOf transformOAuthFlowM
      transformOAuthFlows := methodOf (transformOAuthFlowsM t)
      transformSecurityScheme := methodOf (transformSecuritySchemeM t)
      transformSecurityRequirement := methodOf transformSecurityRequirementM
      transformTag := methodOf (transformTagM t)
      transformContact := o.transformContact.getD (methodOf transformContactM)
      transformLicense := methodOf transformLicenseM
      transformInfo := methodOf (transformInfoM t)
      transformOpenApi := methodOf (transformOpenApiM t) }

/-- The default transformer: no overrides. -/
def defaultTransformer : Nat → Transformer := mkTransformer {}

/-- Source `c` computes `a` from every start state, leaving the path unchanged
and only appending warn messages (the behaviour of every default method
on every input). -/
def TameVal {α : Type} (c : M α) (a : α) : Prop :=
  ∀ s, ∃ w, c s = (Except.ok a, { path := s.path, warns := s.warns ++ w })

/-- A method body is tame at `j` when it computes some `Ret` denoting `j`
itself. -/
def TameBody (c : M Ret) (j : Json) : Prop :=
  ∃ r, TameVal c r ∧ deref j r = j

/-- Source `(k, v)` is an entry of the object `j`. -/
def entryMem (j : Json) (k : String) (v : Json) : Prop :=
  match j with
  | .obj entries => (k, v) ∈ entries
  | _ => False

/-- Source `v` is a present element of the array `j`. -/
def elemMem (j : Json) (v : Json) : Prop :=
  match j with
  | .arr elems => some v ∈ elems
  | _ => False

/-- Identity behaviour of every default method of a transformer at `j`. -/
structure TameMethods (t : Transformer) (j : Json) : Prop where
  discriminator : TameVal (t.transformDiscriminator j) j
  example2 : TameVal (t.transformExample j) j
  example3 : TameVal (t.transformExample3 j) j
  externalDocs : TameVal (t.transformExternalDocs j) j
  xml : TameVal (t.transformXml j) j
  schema : TameVal (t.transformSchema j) j
  schemaProperties : TameVal (t.transformSchemaProperties j) j
  items : TameVal (t.transformItems j) j
  header : TameVal (t.transformHeader j) j
  encoding : TameVal (t.transformEncoding j) j
  link : TameVal (t.transformLink j) j
  mediaType : TameVal (t.transformMediaType j) j
  response : TameVal (t.transformResponse j) j
  responses : TameVal (t.transformResponses j) j
  callback : TameVal (t.transformCallback j) j
  requestBody : TameVal (t.transformRequestBody j) j
  parameter : TameVal (t.transformParameter j) j
  operation : TameVal (t.transformOperation j) j
  pathItem : TameVal (t.transformPathItem j) j
  paths : TameVal (t.transformPaths j) j
  components : TameVal (t.transformComponents j) j
  serverVariable : TameVal (t.transformServerVariable j) j
  server : TameVal (t.transformServer j) j
  oauthFlow : TameVal (t.transformOAuthFlow j) j
  oauthFlows : TameVal (t.transformOAuthFlows j) j
  securityScheme : TameVal (t.transformSecurityScheme j) j
  securityRequirement : TameVal (t.transformSecurityRequirement j) j
  tag : TameVal (t.transformTag j) j
  contact : TameVal (t.transformContact j) j
  license : TameVal (t.transformLicense j) j
  info : TameVal (t.transformInfo j) j
  openApi : TameVal (t.transformOpenApi j) j

/-- What a default method body may assume of the instance it dispatches
through: every method is identity-tame on strictly smaller well-formed
values, and the two adapters are identity-tame on strictly smaller
arguments whenever the supplied element handler is. -/
structure SubTame (t : Transformer) (j : Json) : Prop where
  methods : ∀ j', j'.size < j.size → j'.wf = true → TameMethods t j'
  arrTame : ∀ arr f, arr.size < j.size →
    (∀ v, elemMem arr v → TameVal (f v) v) → TameVal (t.transformArray arr f) arr
  mapTame : ∀ obj f, obj.size < j.size → obj.wf = true →
    (∀ k v, entryMem obj k v → v.isUndefined = false → TameVal (f v) v) →
    TameVal (t.transformMap obj f) obj

/-- A handler that throws the given value (a subclass override whose body
is `throw ...`). -/
def throwingHandler (th : Thrown) : Json → M Json := fun _ => mThrow th

/-- Nested Path-Tracker frames: wrap a handler in one `visit` frame per
name, outermost first. -/
def nestVisits (names : List String) (m : Json → M Json) : Json → M Json :=
  match names with
  | [] => m
  | n :: rest => fun v => visitM (nestVisits rest m) n v

/-- A plain `Error` with the given message and no own `transformPath`. -/
def plainError (msg : String) : Thrown :=
  Thrown.err { message := msg, transformPath := none }

/-- An instrumented handler: logs one fixed message per invocation (a
subclass handler may call the reporting hook), then returns `g` of its
argument. -/
def spyHandler (g : Json → Json) : Json → M Json := fun v =>
  mBind (warnM "handler invoked") (fun _ => mPure (g v))

/-- The object the keyed-map adapter is specified to produce for an
object input: every key preserved in order; eligible entries (value not
`undefined`, key passing the extension policy) hold the handler result,
all others their original value. -/
def mapLikeExpected (g : Json → Json) (skipExtensions : Bool)
    (entries : List (String × Json)) : List (String × Json) :=
  entries.map (fun e =>
    (e.1,
      if !e.2.isUndefined && (!skipExtensions || !e.1.startsWith "x-") then
        g e.2
      else
        e.2))

/-- Scalar inputs in the sense of the external-interface contract:
`undefined`, `null`, booleans, numbers and strings. -/
def isScalarInput : Json → Bool
  | .undef => true
  | .null => true
  | .bool _ => true
  | .num _ => true
  | .str _ => true
  | _ => false

/-- A small well-formed OpenAPI document used to witness the identity
law on a concrete input. -/
def sampleDoc : Json :=
  Json.obj
    [("openapi", Json.str "3.0.3"),
     ("info", Json.obj
       [("title", Json.str "Sample"),
        ("contact", Json.obj [("name", Json.str "K")])]),
     ("paths", Json.obj
       [("/widgets", Json.obj
         [("get", Json.obj
           [("responses", Json.obj
             [("200", Json.obj
               [("description", Json.str "ok"),
                ("content", Json.obj
                  [("application/json", Json.obj
                    [("schema", Json.obj
                      [("type", Json.str "object"),
                       ("properties", Json.obj
                         [("id", Json.obj
                           [("type", Json.str "integer")])])])])])])])])])]),
     ("x-note", Json.str "extension")]

/-- The assignment one loop iteration of the keyed-map adapter performs,
at the entry-list level: an eligible entry's key is set to the handler
image of its value, any other entry leaves the accumulator unchanged. -/
def setEligible (g : Json → Json) (skipExtensions : Bool)
    (acc : List (String × Json)) (e : String × Json) :
    List (String × Json) :=
  if !e.2.isUndefined && (!skipExtensions || !e.1.startsWith "x-") then
    setFirst acc e.1 (g e.2)
  else
    acc

theorem mBind_ok {α β : Type} {c : M α} {a : α} {s s1 : TState}
    (f : α → M β) (h : c s = (Except.ok a, s1)) : mBind c f s = f a s1 := by
  simp [mBind, h]

theorem mBind_err {α β : Type} {c : M α} {e : Thrown} {s s1 : TState}
    (f : α → M β) (h : c s = (Except.error e, s1)) :
    mBind c f s = (Except.error e, s1) := by
  simp [mBind, h]

theorem tameVal_mPure {α : Type} (a : α) : TameVal (mPure a) a := by
  intro s
  exact ⟨[], by simp [mPure]⟩

theorem tameVal_mBind {α β : Type} {c : M α} {a : α} {f : α → M β} {b : β}
    (hc : TameVal c a) (hf : TameVal (f a) b) : TameVal (mBind c f) b := by
  intro s
  obtain ⟨w1, h1⟩ := hc s
  obtain ⟨w2, h2⟩ := hf { path := s.path, warns := s.warns ++ w1 }
  refine ⟨w1 ++ w2, ?_⟩
  rw [mBind_ok f h1, h2]
  simp [List.append_assoc]

theorem tameVal_warnM (msg : String) : TameVal (warnM msg) () := by
  intro s
  exact ⟨[msg], by simp [warnM]⟩

theorem tameVal_warn_then {α : Type} (msg : String) (a : α) :
    TameVal (mBind (warnM msg) (fun _ => mPure a)) a :=
  tameVal_mBind (tameVal_warnM msg) (tameVal_mPure a)

theorem tameVal_visitM {m : Json → M Json} {arg r : Json}
    (h : TameVal (m arg) r) (propName : String) :
    TameVal (visitM m propName arg) r := by
  intro s
  obtain ⟨w, hw⟩ := h { path := s.path ++ [propName], warns := s.warns }
  refine ⟨w, ?_⟩
  simp only [visitM]
  rw [hw]
  simp [List.getLast?_concat, List.dropLast_concat]

theorem size_pos (j : Json) : 1 ≤ j.size := by
  cases j <;> simp [Json.size]

theorem lookupFirst_size {entries : List (String × Json)} {key : String}
    {v : Json} (h : lookupFirst entries key = some v) :
    v.size < (Json.obj entries).size := by
  induction entries with
  | nil => simp [lookupFirst] at h
  | cons e rest ih =>
    obtain ⟨k, w⟩ := e
    by_cases hk : k = key
    · simp only [lookupFirst, if_pos hk, Option.some.injEq] at h
      subst h
      simp [Json.size, sizeEntries]
      omega
    · simp only [lookupFirst, if_neg hk] at h
      have hrest := ih h
      simp [Json.size, sizeEntries] at hrest ⊢
      omega

theorem jsGet_lookup {j : Json} {key : String}
    (h : (jsGet j key).isUndefined = false) :
    ∃ entries, j = Json.obj entries
      ∧ lookupFirst entries key = some (jsGet j key) := by
  cases j with
  | obj entries =>
    refine ⟨entries, rfl, ?_⟩
    cases hl : lookupFirst entries key with
    | none => simp [jsGet, hl, Json.isUndefined] at h
    | some v => simp [jsGet, hl]
  | undef => simp [jsGet, Json.isUndefined] at h
  | null => simp [jsGet, Json.isUndefined] at h
  | bool b => simp [jsGet, Json.isUndefined] at h
  | num n => simp [jsGet, Json.isUndefined] at h
  | str s => simp [jsGet, Json.isUndefined] at h
  | arr elems => simp [jsGet, Json.isUndefined] at h

theorem jsGet_size {j : Json} {key : String}
    (h : (jsGet j key).isUndefined = false) : (jsGet j key).size < j.size := by
  obtain ⟨entries, hj, hl⟩ := jsGet_lookup h
  rw [hj]
  rw [hj] at hl
  exact lookupFirst_size hl

theorem setFirst_self {entries : List (String × Json)} {key : String}
    {v : Json} (h : lookupFirst entries key = some v) :
    setFirst entries key v = entries := by
  induction entries with
  | nil => simp [lookupFirst] at h
  | cons e rest ih =>
    obtain ⟨k, w⟩ := e
    by_cases hk : k = key
    · simp only [lookupFirst, if_pos hk, Option.some.injEq] at h
      subst h
      simp [setFirst, hk]
    · simp only [lookupFirst, if_neg hk] at h
      simp [setFirst, hk, ih h]

theorem jsSet_jsGet_self {j : Json} {key : String}
    (h : (jsGet j key).isUndefined = false) :
    jsSet j key (jsGet j key) = j := by
  obtain ⟨entries, hj, hl⟩ := jsGet_lookup h
  rw [hj] at hl ⊢
  simp [jsSet, setFirst_self hl]

theorem jsTruthy_not_undef {v : Json} (h : jsTruthy v = true) :
    v.isUndefined = false := by
  cases v <;> simp_all [jsTruthy, Json.isUndefined]

theorem wf_obj_parts {entries : List (String × Json)}
    (h : (Json.obj entries).wf = true) :
    nodupKeys (entryKeys entries) = true ∧ wfEntries entries = true := by
  simpa [Json.wf, Bool.and_eq_true] using h

theorem wfEntries_mem {entries : List (String × Json)} {k : String} {v : Json}
    (hw : wfEntries entries = true) (hm : (k, v) ∈ entries) : v.wf = true := by
  induction entries with
  | nil => simp at hm
  | cons e rest ih =>
    obtain ⟨k', w⟩ := e
    simp only [wfEntries, Bool.and_eq_true] at hw
    rcases List.mem_cons.mp hm with he | hrest
    · cases he
      exact hw.1
    · exact ih hw.2 hrest

theorem lookupFirst_mem {entries : List (String × Json)} {key : String}
    {v : Json} (h : lookupFirst entries key = some v) : (key, v) ∈ entries := by
  induction entries with
  | nil => simp [lookupFirst] at h
  | cons e rest ih =>
    obtain ⟨k, w⟩ := e
    by_cases hk : k = key
    · simp only [lookupFirst, if_pos hk, Option.some.injEq] at h
      subst hk
      subst h
      exact List.mem_cons_self _ _
    · simp only [lookupFirst, if_neg hk] at h
      exact List.mem_cons_of_mem _ (ih h)

theorem jsGet_wf {j : Json} {key : String} (h : j.wf = true) :
    (jsGet j key).wf = true := by
  by_cases hu : (jsGet j key).isUndefined = false
  · obtain ⟨entries, hj, hl⟩ := jsGet_lookup hu
    subst hj
    exact wfEntries_mem (wf_obj_parts h).2 (lookupFirst_mem hl)
  · have : (jsGet j key).isUndefined = true := by
      revert hu
      cases (jsGet j key).isUndefined <;> simp
    cases hv : jsGet j key <;> simp_all [Json.isUndefined, Json.wf]

theorem entryMem_size {j : Json} {k : String} {v : Json}
    (hm : entryMem j k v) : v.size < j.size := by
  cases j with
  | obj entries =>
    simp only [entryMem] at hm
    induction entries with
    | nil => simp at hm
    | cons e rest ih =>
      obtain ⟨k', w⟩ := e
      rcases List.mem_cons.mp hm with he | hrest
      · cases he
        simp [Json.size, sizeEntries]
        omega
      · have := ih hrest
        simp [Json.size, sizeEntries] at this ⊢
        omega
  | undef => simp [entryMem] at hm
  | null => simp [entryMem] at hm
  | bool b => simp [entryMem] at hm
  | num n => simp [entryMem] at hm
  | str s => simp [entryMem] at hm
  | arr elems => simp [entryMem] at hm

theorem entryMem_wf {j : Json} {k : String} {v : Json} (hw : j.wf = true)
    (hm : entryMem j k v) : v.wf = true := by
  cases j with
  | obj entries => exact wfEntries_mem (wf_obj_parts hw).2 hm
  | undef => simp [entryMem] at hm
  | null => simp [entryMem] at hm
  | bool b => simp [entryMem] at hm
  | num n => simp [entryMem] at hm
  | str s => simp [entryMem] at hm
  | arr elems => simp [entryMem] at hm

theorem elemMem_size {j : Json} {v : Json} (hm : elemMem j v) :
    v.size < j.size := by
  cases j with
  | arr elems =>
    simp only [elemMem] at hm
    induction elems with
    | nil => simp at hm
    | cons e rest ih =>
      rcases List.mem_cons.mp hm with he | hrest
      · subst he
        simp [Json.size, sizeElems]
        omega
      · have := ih hrest
        cases e with
        | none =>
          simp [Json.size, sizeElems] at this ⊢
          omega
        | some w =>
          simp [Json.size, sizeElems] at this ⊢
          omega
  | undef => simp [elemMem] at hm
  | null => simp [elemMem] at hm
  | bool b => simp [elemMem] at hm
  | num n => simp [elemMem] at hm
  | str s => simp [elemMem] at hm
  | obj entries => simp [elemMem] at hm

theorem elemMem_wf {j : Json} {v : Json} (hw : j.wf = true)
    (hm : elemMem j v) : v.wf = true := by
  cases j with
  | arr elems =>
    simp only [elemMem] at hm
    simp only [Json.wf] at hw
    induction elems with
    | nil => simp at hm
    | cons e rest ih =>
      rcases List.mem_cons.mp hm with he | hrest
      · subst he
        simp only [wfElems, Bool.and_eq_true] at hw
        exact hw.1
      · cases e with
        | none =>
          simp only [wfElems] at hw
          exact ih hw hrest
        | some w =>
          simp only [wfElems, Bool.and_eq_true] at hw
          exact ih hw.2 hrest
  | undef => simp [elemMem] at hm
  | null => simp [elemMem] at hm
  | bool b => simp [elemMem] at hm
  | num n => simp [elemMem] at hm
  | str s => simp [elemMem] at hm
  | obj entries => simp [elemMem] at hm

theorem lookupFirst_of_mem_nodup {entries : List (String × Json)}
    {k : String} {v : Json} (hnd : nodupKeys (entryKeys entries) = true)
    (hm : (k, v) ∈ entries) : lookupFirst entries k = some v := by
  induction entries with
  | nil => simp at hm
  | cons e rest ih =>
    obtain ⟨k', w⟩ := e
    simp only [entryKeys, List.map_cons, nodupKeys, Bool.and_eq_true,
      Bool.not_eq_true'] at hnd
    rcases List.mem_cons.mp hm with he | hrest
    · cases he
      simp [lookupFirst]
    · by_cases hk : k' = k
      · exfalso
        subst hk
        have hmem : k' ∈ rest.map Prod.fst := by
          exact List.mem_map_of_mem Prod.fst hrest
        have hc : (rest.map Prod.fst).contains k' = true := by
          exact List.elem_eq_true_of_mem hmem
        rw [hnd.1] at hc
        exact Bool.false_ne_true hc
      · simp [lookupFirst, hk, ih hnd.2 hrest]

theorem jsSet_self_of_entry {j : Json} {k : String} {v : Json}
    (hw : j.wf = true) (hm : entryMem j k v) : jsSet j k v = j := by
  cases j with
  | obj entries =>
    simp only [entryMem] at hm
    simp only [jsSet]
    rw [setFirst_self (lookupFirst_of_mem_nodup (wf_obj_parts hw).1 hm)]
  | undef => simp [entryMem] at hm
  | null => simp [entryMem] at hm
  | bool b => simp [entryMem] at hm
  | num n => simp [entryMem] at hm
  | str s => simp [entryMem] at hm
  | arr elems => simp [entryMem] at hm

theorem isUndefined_true_of_not_false {v : Json}
    (h : ¬ v.isUndefined = false) : v.isUndefined = true := by
  revert h
  cases v.isUndefined <;> simp

theorem visitField_tame {src : Json} {name : String} {m : Json → M Json}
    (h : (jsGet src name).isUndefined = false →
      TameVal (m (jsGet src name)) (jsGet src name)) :
    TameVal (visitField src name m src) src := by
  by_cases hu : (jsGet src name).isUndefined = false
  · simp only [visitField, hu, Bool.not_false, if_true]
    refine tameVal_mBind (tameVal_visitM (h hu) name) ?_
    rw [jsSet_jsGet_self hu]
    exact tameVal_mPure src
  · simp only [visitField, isUndefined_true_of_not_false hu, Bool.not_true,
      Bool.false_eq_true, if_false]
    exact tameVal_mPure src

theorem visitMapField_tame {tMap : Json → (Json → M Json) → M Json}
    {src : Json} {name : String} {handler : Json → M Json}
    (h : (jsGet src name).isUndefined = false →
      TameVal (tMap (jsGet src name) handler) (jsGet src name)) :
    TameVal (visitMapField tMap src name handler src) src := by
  by_cases hu : (jsGet src name).isUndefined = false
  · simp only [visitMapField, hu, Bool.not_false, if_true]
    refine tameVal_mBind (tameVal_visitM (h hu) name) ?_
    rw [jsSet_jsGet_self hu]
    exact tameVal_mPure src
  · simp only [visitMapField, isUndefined_true_of_not_false hu, Bool.not_true,
      Bool.false_eq_true, if_false]
    exact tameVal_mPure src

theorem arrayField_tame {tArr : Json → (Json → M Json) → M Json}
    {src : Json} {name : String} {handler : Json → M Json}
    (h : (jsGet src name).isUndefined = false →
      TameVal (tArr (jsGet src name) handler) (jsGet src name)) :
    TameVal (arrayField tArr src name handler src) src := by
  by_cases hu : (jsGet src name).isUndefined = false
  · simp only [arrayField, hu, Bool.not_false, if_true]
    refine tameVal_mBind (h hu) ?_
    rw [jsSet_jsGet_self hu]
    exact tameVal_mPure src
  · simp only [arrayField, isUndefined_true_of_not_false hu, Bool.not_true,
      Bool.false_eq_true, if_false]
    exact tameVal_mPure src

theorem visitFieldTruthy_tame {src : Json} {name : String}
    {m : Json → M Json}
    (h : jsTruthy (jsGet src name) = true →
      TameVal (m (jsGet src name)) (jsGet src name)) :
    TameVal (visitFieldTruthy src name m src) src := by
  by_cases ht : jsTruthy (jsGet src name) = true
  · simp only [visitFieldTruthy, ht, if_true]
    refine tameVal_mBind (tameVal_visitM (h ht) name) ?_
    rw [jsSet_jsGet_self (jsTruthy_not_undef ht)]
    exact tameVal_mPure src
  · have ht' : jsTruthy (jsGet src name) = false := by
      revert ht
      cases jsTruthy (jsGet src name) <;> simp
    simp only [visitFieldTruthy, ht', Bool.false_eq_true, if_false]
    exact tameVal_mPure src

theorem foldEntriesM_tame {step : Json → (String × Json) → M Json}
    {obj : Json} (l : List (String × Json))
    (h : ∀ e ∈ l, TameVal (step obj e) obj) :
    TameVal (foldEntriesM step obj l) obj := by
  induction l with
  | nil => exact tameVal_mPure obj
  | cons e rest ih =>
    simp only [foldEntriesM]
    exact tameVal_mBind (h e (List.mem_cons_self _ _))
      (ih fun e' he' => h e' (List.mem_cons_of_mem _ he'))

theorem mapArrayM_tame {f : Json → M Json} (elems : List (Option Json))
    (h : ∀ v, some v ∈ elems → TameVal (f v) v) :
    TameVal (mapArrayM f elems) elems := by
  induction elems with
  | nil => exact tameVal_mPure []
  | cons e rest ih =>
    cases e with
    | none =>
      simp only [mapArrayM]
      exact tameVal_mBind
        (ih fun v hv => h v (List.mem_cons_of_mem _ hv)) (tameVal_mPure _)
    | some v =>
      simp only [mapArrayM]
      refine tameVal_mBind (h v (List.mem_cons_self _ _)) ?_
      exact tameVal_mBind
        (ih fun v' hv => h v' (List.mem_cons_of_mem _ hv)) (tameVal_mPure _)

theorem transformMapLikeM_tame {obj : Json} {transform : Json → M Json}
    (logName : String) (skipExtensions : Bool) (hw : obj.wf = true)
    (h : ∀ k v, entryMem obj k v → v.isUndefined = false →
      TameVal (transform v) v) :
    TameBody (transformMapLikeM obj transform logName skipExtensions)
      obj := by
  cases obj with
  | obj entries =>
    refine ⟨Ret.new (Json.obj entries), ?_, rfl⟩
    simp only [transformMapLikeM]
    refine tameVal_mBind (foldEntriesM_tame entries ?_) (tameVal_mPure _)
    intro e he
    by_cases hcond :
      (!e.2.isUndefined && (!skipExtensions || !e.1.startsWith "x-")) = true
    · rw [if_pos hcond]
      have hu : e.2.isUndefined = false := by
        simp only [Bool.and_eq_true, Bool.not_eq_true'] at hcond
        exact hcond.1
      have hme : entryMem (Json.obj entries) e.1 e.2 := by
        simp only [entryMem]
        exact he
      refine tameVal_mBind (tameVal_visitM (h e.1 e.2 hme hu) e.1) ?_
      rw [jsSet_self_of_entry hw hme]
      exact tameVal_mPure _
    · rw [if_neg hcond]
      exact tameVal_mPure _
  | undef =>
    exact ⟨Ret.arg, by simp only [transformMapLikeM]
                       exact tameVal_warn_then _ _, rfl⟩
  | null =>
    exact ⟨Ret.arg, by simp only [transformMapLikeM]
                       exact tameVal_warn_then _ _, rfl⟩
  | bool b =>
    exact ⟨Ret.arg, by simp only [transformMapLikeM]
                       exact tameVal_warn_then _ _, rfl⟩
  | num n =>
    exact ⟨Ret.arg, by simp only [transformMapLikeM]
                       exact tameVal_warn_then _ _, rfl⟩
  | str s =>
    exact ⟨Ret.arg, by simp only [transformMapLikeM]
                       exact tameVal_warn_then _ _, rfl⟩
  | arr elems =>
    exact ⟨Ret.arg, by simp only [transformMapLikeM]
                       exact tameVal_warn_then _ _, rfl⟩

theorem transformArrayM_tame {arr : Json} {transform : Json → M Json}
    (h : ∀ v, elemMem arr v → TameVal (transform v) v) :
    TameBody (transformArrayM arr transform) arr := by
  cases arr with
  | arr elems =>
    refine ⟨Ret.new (Json.arr elems), ?_, rfl⟩
    simp only [transformArrayM]
    refine tameVal_mBind (mapArrayM_tame elems ?_) (tameVal_mPure _)
    intro v hv
    exact h v (by simp only [elemMem]; exact hv)
  | undef =>
    exact ⟨Ret.arg, by simp only [transformArrayM]
                       exact tameVal_warn_then _ _, rfl⟩
  | null =>
    exact ⟨Ret.arg, by simp only [transformArrayM]
                       exact tameVal_warn_then _ _, rfl⟩
  | bool b =>
    exact ⟨Ret.arg, by simp only [transformArrayM]
                       exact tameVal_warn_then _ _, rfl⟩
  | num n =>
    exact ⟨Ret.arg, by simp only [transformArrayM]
                       exact tameVal_warn_then _ _, rfl⟩
  | str s =>
    exact ⟨Ret.arg, by simp only [transformArrayM]
                       exact tameVal_warn_then _ _, rfl⟩
  | obj entries =>
    exact ⟨Ret.arg, by simp only [transformArrayM]
                       exact tameVal_warn_then _ _, rfl⟩

theorem tameVal_of_tameBody {body : M Ret} {j : Json} (h : TameBody body j) :
    TameVal (mBind body (fun r => mPure (deref j r))) j := by
  obtain ⟨r, hr, hd⟩ := h
  refine tameVal_mBind hr ?_
  rw [hd]
  exact tameVal_mPure j

theorem methodOf_tame {body : Json → M Ret} {j : Json}
    (h : TameBody (body j) j) : TameVal (methodOf body j) j := by
  simp only [methodOf]
  exact tameVal_of_tameBody h

theorem tameBody_arg {j : Json} : TameBody (mPure Ret.arg) j :=
  ⟨Ret.arg, tameVal_mPure _, rfl⟩

theorem tameBody_guard {j : Json} (msg : String) :
    TameBody (mBind (warnM msg) (fun _ => mPure Ret.arg)) j :=
  ⟨Ret.arg, tameVal_warn_then _ _, rfl⟩

theorem bool_false_of_not_true {b : Bool} (h : ¬ b = true) : b = false := by
  revert h
  cases b <;> simp

theorem obj_of_not_guard {j : Json} (h : nonObjectGuard j = false) :
    ∃ entries, j = Json.obj entries := by
  cases j <;>
    simp [nonObjectGuard, Json.typeofIsObject, Json.isNull, Json.isArr] at h ⊢

theorem typeofIsObject_not_undef {v : Json} (h : v.typeofIsObject = true) :
    v.isUndefined = false := by
  cases v <;> simp_all [Json.typeofIsObject, Json.isUndefined]

theorem mapField_hyp {t : Transformer} {j : Json} (hw : j.wf = true)
    (H : SubTame t j) (name : String) (handler : Json → M Json)
    (hsel : ∀ v : Json, v.size < j.size → v.wf = true →
      TameVal (handler v) v) :
    (jsGet j name).isUndefined = false →
      TameVal (t.transformMap (jsGet j name) handler) (jsGet j name) := by
  intro hu
  refine H.mapTame _ _ (jsGet_size hu) (jsGet_wf hw) ?_
  intro k v hm hvu
  exact hsel v (lt_trans (entryMem_size hm) (jsGet_size hu))
    (entryMem_wf (jsGet_wf hw) hm)

theorem arrField_hyp {t : Transformer} {j : Json} (hw : j.wf = true)
    (H : SubTame t j) (name : String) (handler : Json → M Json)
    (hsel : ∀ v : Json, v.size < j.size → v.wf = true →
      TameVal (handler v) v) :
    (jsGet j name).isUndefined = false →
      TameVal (t.transformArray (jsGet j name) handler) (jsGet j name) := by
  intro hu
  refine H.arrTame _ _ (jsGet_size hu) ?_
  intro v hm
  exact hsel v (lt_trans (elemMem_size hm) (jsGet_size hu))
    (elemMem_wf (jsGet_wf hw) hm)

theorem mapLikeFn_hyp {j : Json} {transform : Json → M Json}
    (logName : String) (skipExtensions : Bool) (hw : j.wf = true)
    (name : String)
    (hsel : ∀ v : Json, v.size < j.size → v.wf = true →
      TameVal (transform v) v) :
    (jsGet j name).isUndefined = false →
      TameVal (transformMapLikeFn transform logName skipExtensions
        (jsGet j name)) (jsGet j name) := by
  intro hu
  simp only [transformMapLikeFn]
  refine tameVal_of_tameBody
    (transformMapLikeM_tame logName skipExtensions (jsGet_wf hw) ?_)
  intro k v hm hvu
  exact hsel v (lt_trans (entryMem_size hm) (jsGet_size hu))
    (entryMem_wf (jsGet_wf hw) hm)

theorem transformItemsM_tame {t : Transformer} {j : Json} (hw : j.wf = true)
    (H : SubTame t j) : TameBody (transformItemsM t j) j := by
  by_cases hg : nonObjectGuard j = true
  · simp only [transformItemsM, hg, if_true]
    exact tameBody_guard _
  · simp only [transformItemsM, bool_false_of_not_true hg,
      Bool.false_eq_true, if_false]
    by_cases hu : (jsGet j "items").isUndefined = false
    · simp only [hu, Bool.false_eq_true, if_false]
      refine ⟨Ret.new j, ?_, rfl⟩
      refine tameVal_mBind
        (tameVal_visitM ((H.methods _ (jsGet_size hu) (jsGet_wf hw)).items)
          "items") ?_
      rw [jsSet_jsGet_self hu]
      exact tameVal_mPure _
    · simp only [isUndefined_true_of_not_false hu, if_true]
      exact tameBody_arg

theorem transformHeaderM_tame {t : Transformer} {j : Json} (hw : j.wf = true)
    (H : SubTame t j) : TameBody (transformHeaderM t j) j := by
  by_cases hg : nonObjectGuard j = true
  · simp only [transformHeaderM, hg, if_true]
    exact tameBody_guard _
  · simp only [transformHeaderM, bool_false_of_not_true hg,
      Bool.false_eq_true, if_false]
    refine ⟨Ret.new j, ?_, rfl⟩
    refine tameVal_mBind (visitField_tame fun hu =>
      (H.methods _ (jsGet_size hu) (jsGet_wf hw)).items) ?_
    refine tameVal_mBind (visitField_tame fun hu =>
      (H.methods _ (jsGet_size hu) (jsGet_wf hw)).schema) ?_
    exact tameVal_mPure _

theorem transformEncodingM_tame {t : Transformer} {j : Json}
    (hw : j.wf = true) (H : SubTame t j) :
    TameBody (transformEncodingM t j) j := by
  by_cases hg : nonObjectGuard j = true
  · simp only [transformEncodingM, hg, if_true]
    exact tameBody_guard _
  · simp only [transformEncodingM, bool_false_of_not_true hg,
      Bool.false_eq_true, if_false]
    by_cases hu : (jsGet j "headers").isUndefined = false
    · simp only [hu, Bool.false_eq_true, if_false]
      refine ⟨Ret.new j, ?_, rfl⟩
      refine tameVal_mBind
        (tameVal_visitM
          (mapField_hyp hw H "headers" t.transformHeader
            (fun v hvs hvw => (H.methods v hvs hvw).header) hu) "headers") ?_
      rw [jsSet_jsGet_self hu]
      exact tameVal_mPure _
    · simp only [isUndefined_true_of_not_false hu, if_true]
      exact tameBody_arg

theorem transformLinkM_tame {t : Transformer} {j : Json} (hw : j.wf = true)
    (H : SubTame t j) : TameBody (transformLinkM t j) j := by
  by_cases hg : nonObjectGuard j = true
  · simp only [transformLinkM, hg, if_true]
    exact tameBody_guard _
  · simp only [transformLinkM, bool_false_of_not_true hg,
      Bool.false_eq_true, if_false]
    by_cases hu : (jsGet j "server").isUndefined = false
    · simp only [hu, Bool.false_eq_true, if_false]
      refine ⟨Ret.new j, ?_, rfl⟩
      refine tameVal_mBind
        (tameVal_visitM ((H.methods _ (jsGet_size hu) (jsGet_wf hw)).server)
          "server") ?_
      rw [jsSet_jsGet_self hu]
      exact tameVal_mPure _
    · simp only [isUndefined_true_of_not_false hu, if_true]
      exact tameBody_arg

theorem transformMediaTypeM_tame {t : Transformer} {j : Json}
    (hw : j.wf = true) (H : SubTame t j) :
    TameBody (transformMediaTypeM t j) j := by
  by_cases hg : nonObjectGuard j = true
  · simp only [transformMediaTypeM, hg, if_true]
    exact tameBody_guard _
  · simp only [transformMediaTypeM, bool_false_of_not_true hg,
      Bool.false_eq_true, if_false]
    refine ⟨Ret.new j, ?_, rfl⟩
    refine tameVal_mBind (visitField_tame fun hu =>
      (H.methods _ (jsGet_size hu) (jsGet_wf hw)).schema) ?_
    refine tameVal_mBind (visitMapField_tame
      (mapField_hyp hw H "examples" t.transformExample3
        (fun v hvs hvw => (H.methods v hvs hvw).example3))) ?_
    refine tameVal_mBind (visitMapField_tame
      (mapField_hyp hw H "encoding" t.transformEncoding
        (fun v hvs hvw => (H.methods v hvs hvw).encoding))) ?_
    exact tameVal_mPure _

theorem transformResponseM_tame {t : Transformer} {j : Json}
    (hw : j.wf = true) (H : SubTame t j) :
    TameBody (transformResponseM t j) j := by
  by_cases hg : nonObjectGuard j = true
  · simp only [transformResponseM, hg, if_true]
    exact tameBody_guard _
  · simp only [transformResponseM, bool_false_of_not_true hg,
      Bool.false_eq_true, if_false]
    refine ⟨Ret.new j, ?_, rfl⟩
    refine tameVal_mBind (visitMapField_tame
      (mapField_hyp hw H "headers" t.transformHeader
        (fun v hvs hvw => (H.methods v hvs hvw).header))) ?_
    refine tameVal_mBind (visitMapField_tame
      (mapField_hyp hw H "content" t.transformMediaType
        (fun v hvs hvw => (H.methods v hvs hvw).mediaType))) ?_
    refine tameVal_mBind (visitMapField_tame
      (mapField_hyp hw H "links" t.transformLink
        (fun v hvs hvw => (H.methods v hvs hvw).link))) ?_
    refine tameVal_mBind (visitField_tame fun hu =>
      (H.methods _ (jsGet_size hu) (jsGet_wf hw)).schema) ?_
    refine tameVal_mBind (visitField_tame fun hu =>
      (H.methods _ (jsGet_size hu) (jsGet_wf hw)).example2) ?_
    exact tameVal_mPure _

theorem transformParameterM_tame {t : Transformer} {j : Json}
    (hw : j.wf = true) (H : SubTame t j) :
    TameBody (transformParameterM t j) j := by
  by_cases hg : nonObjectGuard j = true
  · simp only [transformParameterM, hg, if_true]
    exact tameBody_guard _
  · simp only [transformParameterM, bool_false_of_not_true hg,
      Bool.false_eq_true, if_false]
    refine ⟨Ret.new j, ?_, rfl⟩
    refine tameVal_mBind (visitMapField_tame
      (mapField_hyp hw H "content" t.transformMediaType
        (fun v hvs hvw => (H.methods v hvs hvw).mediaType))) ?_
    refine tameVal_mBind (visitField_tame fun hu =>
      (H.methods _ (jsGet_size hu) (jsGet_wf hw)).schema) ?_
    refine tameVal_mBind (visitField_tame fun hu =>
      (H.methods _ (jsGet_size hu) (jsGet_wf hw)).items) ?_
    refine tameVal_mBind (visitMapField_tame
      (mapField_hyp hw H "examples" t.transformExample3
        (fun v hvs hvw => (H.methods v hvs hvw).example3))) ?_
    exact tameVal_mPure _

theorem transformRequestBodyM_tame {t : Transformer} {j : Json}
    (hw : j.wf = true) (H : SubTame t j) :
    TameBody (transformRequestBodyM t j) j := by
  by_cases hg : nonObjectGuard j = true
  · simp only [transformRequestBodyM, hg, if_true]
    exact tameBody_guard _
  · simp only [transformRequestBodyM, bool_false_of_not_true hg,
      Bool.false_eq_true, if_false]
    by_cases hu : (jsGet j "content").isUndefined = false
    · simp only [hu, Bool.false_eq_true, if_false]
      refine ⟨Ret.new j, ?_, rfl⟩
      refine tameVal_mBind
        (tameVal_visitM
          (mapField_hyp hw H "content" t.transformMediaType
            (fun v hvs hvw => (H.methods v hvs hvw).mediaType) hu)
          "content") ?_
      rw [jsSet_jsGet_self hu]
      exact tameVal_mPure _
    · simp only [isUndefined_true_of_not_false hu, if_true]
      exact tameBody_arg

theorem transformServerM_tame {t : Transformer} {j : Json} (hw : j.wf = true)
    (H : SubTame t j) : TameBody (transformServerM t j) j := by
  by_cases hg : nonObjectGuard j = true
  · simp only [transformServerM, hg, if_true]
    exact tameBody_guard _
  · simp only [transformServerM, bool_false_of_not_true hg,
      Bool.false_eq_true, if_false]
    by_cases hu : (jsGet j "variables").isUndefined = false
    · simp only [hu, Bool.false_eq_true, if_false]
      refine ⟨Ret.new j, ?_, rfl⟩
      refine tameVal_mBind
        (tameVal_visitM
          (mapField_hyp hw H "variables" t.transformServerVariable
            (fun v hvs hvw => (H.methods v hvs hvw).serverVariable) hu)
          "variables") ?_
      rw [jsSet_jsGet_self hu]
      exact tameVal_mPure _
    · simp only [isUndefined_true_of_not_false hu, if_true]
      exact tameBody_arg

theorem transformOAuthFlowsM_tame {t : Transformer} {j : Json}
    (hw : j.wf = true) (H : SubTame t j) :
    TameBody (transformOAuthFlowsM t j) j := by
  by_cases hg : nonObjectGuard j = true
  · simp only [transformOAuthFlowsM, hg, if_true]
    exact tameBody_guard _
  · simp only [transformOAuthFlowsM, bool_false_of_not_true hg,
      Bool.false_eq_true, if_false]
    refine ⟨Ret.new j, ?_, rfl⟩
    refine tameVal_mBind (visitFieldTruthy_tame fun ht =>
      (H.methods _ (jsGet_size (jsTruthy_not_undef ht))
        (jsGet_wf hw)).oauthFlow) ?_
    refine tameVal_mBind (visitFieldTruthy_tame fun ht =>
      (H.methods _ (jsGet_size (jsTruthy_not_undef ht))
        (jsGet_wf hw)).oauthFlow) ?_
    refine tameVal_mBind (visitFieldTruthy_tame fun ht =>
      (H.methods _ (jsGet_size (jsTruthy_not_undef ht))
        (jsGet_wf hw)).oauthFlow) ?_
    refine tameVal_mBind (visitFieldTruthy_tame fun ht =>
      (H.methods _ (jsGet_size (jsTruthy_not_undef ht))
        (jsGet_wf hw)).oauthFlow) ?_
    exact tameVal_mPure _

theorem transformSecuritySchemeM_tame {t : Transformer} {j : Json}
    (hw : j.wf = true) (H : SubTame t j) :
    TameBody (transformSecuritySchemeM t j) j := by
  by_cases hg : nonObjectGuard j = true
  · simp only [transformSecuritySchemeM, hg, if_true]
    exact tameBody_guard _
  · simp only [transformSecuritySchemeM, bool_false_of_not_true hg,
      Bool.false_eq_true, if_false]
    by_cases hu : (jsGet j "flows").isUndefined = false
    · simp only [hu, Bool.false_eq_true, if_false]
      refine ⟨Ret.new j, ?_, rfl⟩
      refine tameVal_mBind
        (tameVal_visitM
          ((H.methods _ (jsGet_size hu) (jsGet_wf hw)).oauthFlows)
          "flows") ?_
      rw [jsSet_jsGet_self hu]
      exact tameVal_mPure _
    · simp only [isUndefined_true_of_not_false hu, if_true]
      exact tameBody_arg

theorem transformTagM_tame {t : Transformer} {j : Json} (hw : j.wf = true)
    (H : SubTame t j) : TameBody (transformTagM t j) j := by
  by_cases hg : nonObjectGuard j = true
  · simp only [transformTagM, hg, if_true]
    exact tameBody_guard _
  · simp only [transformTagM, bool_false_of_not_true hg,
      Bool.false_eq_true, if_false]
    by_cases hu : (jsGet j "externalDocs").isUndefined = false
    · simp only [hu, Bool.false_eq_true, if_false]
      refine ⟨Ret.new j, ?_, rfl⟩
      refine tameVal_mBind
        (tameVal_visitM
          ((H.methods _ (jsGet_size hu) (jsGet_wf hw)).externalDocs)
          "externalDocs") ?_
      rw [jsSet_jsGet_self hu]
      exact tameVal_mPure _
    · simp only [isUndefined_true_of_not_false hu, if_true]
      exact tameBody_arg

theorem transformInfoM_tame {t : Transformer} {j : Json} (hw : j.wf = true)
    (H : SubTame t j) : TameBody (transformInfoM t j) j := by
  by_cases hg : nonObjectGuard j = true
  · simp only [transformInfoM, hg, if_true]
    exact tameBody_guard _
  · simp only [transformInfoM, bool_false_of_not_true hg,
      Bool.false_eq_true, if_false]
    refine ⟨Ret.arg, ?_, rfl⟩
    refine tameVal_mBind (visitField_tame fun hu =>
      (H.methods _ (jsGet_size hu) (jsGet_wf hw)).contact) ?_
    refine tameVal_mBind (visitField_tame fun hu =>
      (H.methods _ (jsGet_size hu) (jsGet_wf hw)).license) ?_
    exact tameVal_mPure _

theorem transformSchemaPropertiesM_tame {t : Transformer} {j : Json}
    (hw : j.wf = true) (H : SubTame t j) :
    TameBody (transformSchemaPropertiesM t j) j := by
  simp only [transformSchemaPropertiesM]
  refine transformMapLikeM_tame _ _ hw ?_
  intro k v hm hvu
  exact (H.methods v (entryMem_size hm) (entryMem_wf hw hm)).schema

theorem transformCallbackM_tame {t : Transformer} {j : Json}
    (hw : j.wf = true) (H : SubTame t j) :
    TameBody (transformCallbackM t j) j := by
  simp only [transformCallbackM]
  refine transformMapLikeM_tame _ _ hw ?_
  intro k v hm hvu
  exact (H.methods v (entryMem_size hm) (entryMem_wf hw hm)).pathItem

theorem transformPathsM_tame {t : Transformer} {j : Json} (hw : j.wf = true)
    (H : SubTame t j) : TameBody (transformPathsM t j) j := by
  simp only [transformPathsM]
  refine transformMapLikeM_tame _ _ hw ?_
  intro k v hm hvu
  exact (H.methods v (entryMem_size hm) (entryMem_wf hw hm)).pathItem

theorem transformComponentsM_tame {t : Transformer} {j : Json}
    (hw : j.wf = true) (H : SubTame t j) :
    TameBody (transformComponentsM t j) j := by
  by_cases hg : nonObjectGuard j = true
  · simp only [transformComponentsM, hg, if_true]
    exact tameBody_guard _
  · simp only [transformComponentsM, bool_false_of_not_true hg,
      Bool.false_eq_true, if_false]
    refine ⟨Ret.new j, ?_, rfl⟩
    refine tameVal_mBind (visitMapField_tame
      (mapField_hyp hw H "schemas" t.transformSchema
        (fun v hvs hvw => (H.methods v hvs hvw).schema))) ?_
    refine tameVal_mBind (visitMapField_tame
      (mapField_hyp hw H "responses" t.transformResponse
        (fun v hvs hvw => (H.methods v hvs hvw).response))) ?_
    refine tameVal_mBind (visitMapField_tame
      (mapField_hyp hw H "parameters" t.transformParameter
        (fun v hvs hvw => (H.methods v hvs hvw).parameter))) ?_
    refine tameVal_mBind (visitMapField_tame
      (mapField_hyp hw H "examples" t.transformExample3
        (fun v hvs hvw => (H.methods v hvs hvw).example3))) ?_
    refine tameVal_mBind (visitMapField_tame
      (mapField_hyp hw H "requestBodies" t.transformRequestBody
        (fun v hvs hvw => (H.methods v hvs hvw).requestBody))) ?_
    refine tameVal_mBind (visitMapField_tame
      (mapField_hyp hw H "headers" t.transformHeader
        (fun v hvs hvw => (H.methods v hvs hvw).header))) ?_
    refine tameVal_mBind (visitMapField_tame
      (mapField_hyp hw H "securitySchemes" t.transformSecurityScheme
        (fun v hvs hvw => (H.methods v hvs hvw).securityScheme))) ?_
    refine tameVal_mBind (visitMapField_tame
      (mapField_hyp hw H "links" t.transformLink
        (fun v hvs hvw => (H.methods v hvs hvw).link))) ?_
    refine tameVal_mBind (visitMapField_tame
      (mapField_hyp hw H "callbacks" t.transformCallback
        (fun v hvs hvw => (H.methods v hvs hvw).callback))) ?_
    refine tameVal_mBind (visitMapField_tame
      (mapField_hyp hw H "pathItems" t.transformPathItem
        (fun v hvs hvw => (H.methods v hvs hvw).pathItem))) ?_
    exact tameVal_mPure _

theorem transformOperationM_tame {t : Transformer} {j : Json}
    (hw : j.wf = true) (H : SubTame t j) :
    TameBody (transformOperationM t j) j := by
  by_cases hg : nonObjectGuard j = true
  · simp only [transformOperationM, hg, if_true]
    exact tameBody_guard _
  · simp only [transformOperationM, bool_false_of_not_true hg,
      Bool.false_eq_true, if_false]
    refine ⟨Ret.new j, ?_, rfl⟩
    refine tameVal_mBind (visitField_tame fun hu =>
      (H.methods _ (jsGet_size hu) (jsGet_wf hw)).externalDocs) ?_
    refine tameVal_mBind (arrayField_tame
      (arrField_hyp hw H "parameters" t.transformParameter
        (fun v hvs hvw => (H.methods v hvs hvw).parameter))) ?_
    refine tameVal_mBind (visitField_tame fun hu =>
      (H.methods _ (jsGet_size hu) (jsGet_wf hw)).requestBody) ?_
    refine tameVal_mBind (visitField_tame fun hu =>
      (H.methods _ (jsGet_size hu) (jsGet_wf hw)).responses) ?_
    refine tameVal_mBind (visitMapField_tame
      (mapField_hyp hw H "callbacks" t.transformCallback
        (fun v hvs hvw => (H.methods v hvs hvw).callback))) ?_
    refine tameVal_mBind (arrayField_tame
      (arrField_hyp hw H "security" t.transformSecurityRequirement
        (fun v hvs hvw => (H.methods v hvs hvw).securityRequirement))) ?_
    refine tameVal_mBind (arrayField_tame
      (arrField_hyp hw H "servers" t.transformServer
        (fun v hvs hvw => (H.methods v hvs hvw).server))) ?_
    exact tameVal_mPure _

theorem responses_obj {j : Json}
    (h : (!jsTruthy j || !j.typeofIsObject || j.isArr) = false) :
    ∃ entries, j = Json.obj entries := by
  cases j <;> simp_all [jsTruthy, Json.typeofIsObject, Json.isArr]

theorem transformResponsesM_tame {t : Transformer} {j : Json}
    (hw : j.wf = true) (H : SubTame t j) :
    TameBody (transformResponsesM t j) j := by
  by_cases hg : (!jsTruthy j || !j.typeofIsObject || j.isArr) = true
  · simp only [transformResponsesM, hg, if_true]
    exact tameBody_guard _
  · have hg' := bool_false_of_not_true hg
    obtain ⟨entries, rfl⟩ := responses_obj hg'
    simp only [transformResponsesM, hg', Bool.false_eq_true, if_false]
    refine ⟨Ret.new (Json.obj entries), ?_, rfl⟩
    refine tameVal_mBind (foldEntriesM_tame entries ?_) (tameVal_mPure _)
    intro e he
    by_cases hc1 : (e.1 = "default" || isResponseStatusKey e.1) = true
    · rw [if_pos hc1]
      by_cases hu : (jsGet (Json.obj entries) e.1).isUndefined = false
      · simp only [hu, Bool.not_false, if_true]
        refine tameVal_mBind
          (tameVal_visitM
            ((H.methods _ (jsGet_size hu) (jsGet_wf hw)).response) e.1) ?_
        rw [jsSet_jsGet_self hu]
        exact tameVal_mPure _
      · simp only [isUndefined_true_of_not_false hu, Bool.not_true,
          Bool.false_eq_true, if_false]
        exact tameVal_mPure _
    · rw [if_neg hc1]
      by_cases hc2 : (e.1 != "$ref" && !e.1.startsWith "x-") = true
      · rw [if_pos hc2]
        exact tameVal_warn_then _ _
      · rw [if_neg hc2]
        exact tameVal_mPure _

theorem transformPathItemM_tame {t : Transformer} {j : Json}
    (hw : j.wf = true) (H : SubTame t j) :
    TameBody (transformPathItemM t j) j := by
  by_cases hg : nonObjectGuard j = true
  · simp only [transformPathItemM, hg, if_true]
    exact tameBody_guard _
  · have hg' := bool_false_of_not_true hg
    obtain ⟨entries, rfl⟩ := obj_of_not_guard hg'
    simp only [transformPathItemM, hg', Bool.false_eq_true, if_false]
    refine ⟨Ret.new (Json.obj entries), ?_, rfl⟩
    refine tameVal_mBind (arrayField_tame
      (arrField_hyp hw H "servers" t.transformServer
        (fun v hvs hvw => (H.methods v hvs hvw).server))) ?_
    refine tameVal_mBind (arrayField_tame
      (arrField_hyp hw H "parameters" t.transformParameter
        (fun v hvs hvw => (H.methods v hvs hvw).parameter))) ?_
    refine tameVal_mBind (foldEntriesM_tame entries ?_) (tameVal_mPure _)
    intro e he
    by_cases hc1 : (!(jsGet (Json.obj entries) e.1).isUndefined
        && httpMethods.contains e.1.toUpper) = true
    · rw [if_pos hc1]
      have hu : (jsGet (Json.obj entries) e.1).isUndefined = false := by
        simp only [Bool.and_eq_true, Bool.not_eq_true'] at hc1
        exact hc1.1
      refine tameVal_mBind
        (tameVal_visitM
          ((H.methods _ (jsGet_size hu) (jsGet_wf hw)).operation) e.1) ?_
      rw [jsSet_jsGet_self hu]
      exact tameVal_mPure _
    · rw [if_neg hc1]
      by_cases hc2 : (e.1 != "$ref" && e.1 != "description"
          && e.1 != "parameters" && e.1 != "servers" && e.1 != "summary"
          && !e.1.startsWith "x-") = true
      · rw [if_pos hc2]
        exact tameVal_warn_then _ _
      · rw [if_neg hc2]
        exact tameVal_mPure _

theorem transformSchemaM_tame {t : Transformer} {j : Json} (hw : j.wf = true)
    (H : SubTame t j) : TameBody (transformSchemaM t j) j := by
  by_cases hg : nonObjectGuard j = true
  · simp only [transformSchemaM, hg, if_true]
    by_cases hb : j.isBool = true
    · simp only [hb, Bool.not_true, Bool.false_eq_true, if_false]
      exact tameBody_arg
    · simp only [bool_false_of_not_true hb, Bool.not_false, if_true]
      exact tameBody_guard _
  · simp only [transformSchemaM, bool_false_of_not_true hg,
      Bool.false_eq_true, if_false]
    refine ⟨Ret.new j, ?_, rfl⟩
    refine tameVal_mBind (visitField_tame fun hu =>
      (H.methods _ (jsGet_size hu) (jsGet_wf hw)).discriminator) ?_
    refine tameVal_mBind (visitField_tame fun hu =>
      (H.methods _ (jsGet_size hu) (jsGet_wf hw)).externalDocs) ?_
    refine tameVal_mBind (visitField_tame fun hu =>
      (H.methods _ (jsGet_size hu) (jsGet_wf hw)).xml) ?_
    refine @tameVal_mBind _ _ _ j _ _ ?items ?rest4
    case items =>
      by_cases hu : (jsGet j "items").isUndefined = false
      · simp only [hu, Bool.not_false, if_true]
        by_cases ha : (jsGet j "items").isArr = true
        · simp only [ha, if_true]
          refine tameVal_mBind
            (arrField_hyp hw H "items" t.transformSchema
              (fun v hvs hvw => (H.methods v hvs hvw).schema) hu) ?_
          rw [jsSet_jsGet_self hu]
          exact tameVal_mPure _
        · simp only [bool_false_of_not_true ha, Bool.false_eq_true, if_false]
          refine tameVal_mBind
            (tameVal_visitM
              ((H.methods _ (jsGet_size hu) (jsGet_wf hw)).schema)
              "items") ?_
          rw [jsSet_jsGet_self hu]
          exact tameVal_mPure _
      · simp only [isUndefined_true_of_not_false hu, Bool.not_true,
          Bool.false_eq_true, if_false]
        exact tameVal_mPure _
    case rest4 =>
    refine tameVal_mBind (foldEntriesM_tame _ ?subfold) ?rest5
    case subfold =>
      intro e he
      by_cases hu : (jsGet j e.1).isUndefined = false
      · simp only [hu, Bool.not_false, if_true]
        refine tameVal_mBind
          (tameVal_visitM
            ((H.methods _ (jsGet_size hu) (jsGet_wf hw)).schema)
            "subSchema") ?_
        rw [jsSet_jsGet_self hu]
        exact tameVal_mPure _
      · simp only [isUndefined_true_of_not_false hu, Bool.not_true,
          Bool.false_eq_true, if_false]
        exact tameVal_mPure _
    case rest5 =>
    refine tameVal_mBind (visitField_tame fun hu =>
      (H.methods _ (jsGet_size hu) (jsGet_wf hw)).schemaProperties) ?_
    refine tameVal_mBind (visitField_tame
      (mapLikeFn_hyp "Schema" false hw "patternProperties"
        (fun v hvs hvw => (H.methods v hvs hvw).schema))) ?_
    refine tameVal_mBind (visitField_tame fun hu =>
      (H.methods _ (jsGet_size hu) (jsGet_wf hw)).schema) ?_
    refine tameVal_mBind (visitField_tame fun hu =>
      (H.methods _ (jsGet_size hu) (jsGet_wf hw)).schema) ?_
    refine tameVal_mBind (foldEntriesM_tame _ ?addfold) ?rest6
    case addfold =>
      intro e he
      by_cases hu : (jsGet j e.1).isUndefined = false
      · simp only [hu, Bool.not_false, if_true]
        refine tameVal_mBind
          (tameVal_visitM
            ((H.methods _ (jsGet_size hu) (jsGet_wf hw)).schema) e.1) ?_
        rw [jsSet_jsGet_self hu]
        exact tameVal_mPure _
      · simp only [isUndefined_true_of_not_false hu, Bool.not_true,
          Bool.false_eq_true, if_false]
        exact tameVal_mPure _
    case rest6 =>
    refine tameVal_mBind (visitField_tame fun hu =>
      (H.methods _ (jsGet_size hu) (jsGet_wf hw)).schema) ?_
    refine tameVal_mBind (visitField_tame
      (mapLikeFn_hyp "Schema" false hw "dependentSchemas"
        (fun v hvs hvw => (H.methods v hvs hvw).schema))) ?_
    refine tameVal_mBind (visitField_tame fun hu =>
      (H.methods _ (jsGet_size hu) (jsGet_wf hw)).schema) ?_
    refine tameVal_mBind (foldEntriesM_tame _ ?arrfold) ?rest7
    case arrfold =>
      intro e he
      by_cases hu : (jsGet j e.1).isUndefined = false
      · simp only [hu, Bool.not_false, if_true]
        refine tameVal_mBind
          (tameVal_visitM
            (arrField_hyp hw H e.1 t.transformSchema
              (fun v hvs hvw => (H.methods v hvs hvw).schema) hu) e.1) ?_
        rw [jsSet_jsGet_self hu]
        exact tameVal_mPure _
      · simp only [isUndefined_true_of_not_false hu, Bool.not_true,
          Bool.false_eq_true, if_false]
        exact tameVal_mPure _
    case rest7 =>
    exact tameVal_mPure _

theorem transformOpenApiM_tame {t : Transformer} {j : Json}
    (hw : j.wf = true) (H : SubTame t j) :
    TameBody (transformOpenApiM t j) j := by
  by_cases hg : nonObjectGuard j = true
  · simp only [transformOpenApiM, hg, if_true]
    exact tameBody_guard _
  · simp only [transformOpenApiM, bool_false_of_not_true hg,
      Bool.false_eq_true, if_false]
    refine ⟨Ret.new j, ?_, rfl⟩
    refine tameVal_mBind (visitField_tame fun hu =>
      (H.methods _ (jsGet_size hu) (jsGet_wf hw)).info) ?_
    refine tameVal_mBind (arrayField_tame
      (arrField_hyp hw H "servers" t.transformServer
        (fun v hvs hvw => (H.methods v hvs hvw).server))) ?_
    refine @tameVal_mBind _ _ _ j _ _ ?xms ?rest3
    case xms =>
      by_cases hobj : ((jsGet j "x-ms-parameterized-host").typeofIsObject
          && !(jsGet j "x-ms-parameterized-host").isNull) = true
      · simp only [hobj, if_true]
        have hobj1 : (jsGet j "x-ms-parameterized-host").isUndefined
            = false := by
          simp only [Bool.and_eq_true] at hobj
          exact typeofIsObject_not_undef hobj.1
        by_cases hu : (jsGet (jsGet j "x-ms-parameterized-host")
            "parameters").isUndefined = false
        · simp only [hu, Bool.not_false, if_true]
          have hsize : (jsGet (jsGet j "x-ms-parameterized-host")
              "parameters").size < j.size :=
            lt_trans (jsGet_size hu) (jsGet_size hobj1)
          refine @tameVal_mBind _ _ _ (jsGet (jsGet j "x-ms-parameterized-host") "parameters") _ _ ?xarr ?xfin
          case xarr =>
            refine H.arrTame _ _ hsize ?_
            intro v hm
            exact (H.methods v (lt_trans (elemMem_size hm) hsize)
              (elemMem_wf (jsGet_wf (jsGet_wf hw)) hm)).parameter
          case xfin =>
            rw [jsSet_jsGet_self hu, jsSet_jsGet_self hobj1]
            exact tameVal_mPure _
        · simp only [isUndefined_true_of_not_false hu, Bool.not_true,
            Bool.false_eq_true, if_false]
          exact tameVal_mPure _
      · simp only [bool_false_of_not_true hobj, Bool.false_eq_true, if_false]
        exact tameVal_mPure _
    case rest3 =>
    refine tameVal_mBind (visitField_tame fun hu =>
      (H.methods _ (jsGet_size hu) (jsGet_wf hw)).components) ?_
    refine tameVal_mBind (visitMapField_tame
      (mapField_hyp hw H "definitions" t.transformSchema
        (fun v hvs hvw => (H.methods v hvs hvw).schema))) ?_
    refine tameVal_mBind (visitMapField_tame
      (mapField_hyp hw H "parameters" t.transformParameter
        (fun v hvs hvw => (H.methods v hvs hvw).parameter))) ?_
    refine tameVal_mBind (visitMapField_tame
      (mapField_hyp hw H "responses" t.transformResponse
        (fun v hvs hvw => (H.methods v hvs hvw).response))) ?_
    refine tameVal_mBind (visitField_tame fun hu =>
      (H.methods _ (jsGet_size hu) (jsGet_wf hw)).paths) ?_
    refine tameVal_mBind (visitField_tame fun hu =>
      (H.methods _ (jsGet_size hu) (jsGet_wf hw)).paths) ?_
    refine tameVal_mBind (visitMapField_tame
      (mapField_hyp hw H "webhooks" t.transformPathItem
        (fun v hvs hvw => (H.methods v hvs hvw).pathItem))) ?_
    refine tameVal_mBind (arrayField_tame
      (arrField_hyp hw H "security" t.transformSecurityRequirement
        (fun v hvs hvw => (H.methods v hvs hvw).securityRequirement))) ?_
    refine tameVal_mBind (arrayField_tame
      (arrField_hyp hw H "tags" t.transformTag
        (fun v hvs hvw => (H.methods v hvs hvw).tag))) ?_
    refine tameVal_mBind (visitField_tame fun hu =>
      (H.methods _ (jsGet_size hu) (jsGet_wf hw)).externalDocs) ?_
    exact tameVal_mPure _

theorem defaultTransformer_arr_tame (n : Nat) (arr : Json)
    (f : Json → M Json) (hf : ∀ v, elemMem arr v → TameVal (f v) v) :
    TameVal ((defaultTransformer (n + 1)).transformArray arr f) arr := by
  show TameVal (methodOf (fun a => transformArrayM a f) arr) arr
  exact methodOf_tame (transformArrayM_tame hf)

theorem defaultTransformer_map_tame (n : Nat) (obj : Json)
    (f : Json → M Json) (hwf : obj.wf = true)
    (hf : ∀ k v, entryMem obj k v → v.isUndefined = false →
      TameVal (f v) v) :
    TameVal ((defaultTransformer (n + 1)).transformMap obj f) obj := by
  show TameVal (methodOf (fun x => transformMapLikeM x f "Map" false) obj) obj
  exact methodOf_tame (transformMapLikeM_tame "Map" false hwf hf)

theorem tame_all : ∀ n : Nat, ∀ j : Json, j.size < n → j.wf = true →
    TameMethods (defaultTransformer n) j := by
  intro n
  induction n with
  | zero =>
    intro j hs _
    exact absurd hs (by have := size_pos j; omega)
  | succ n ih =>
    intro j hs hw
    cases n with
    | zero =>
      exact absurd hs (by have := size_pos j; omega)
    | succ m =>
      have hsub : SubTame (defaultTransformer (m + 1)) j := by
        refine ⟨?_, ?_, ?_⟩
        · intro j' h1 h2
          exact ih j' (by omega) h2
        · intro arr f _ hf
          exact defaultTransformer_arr_tame m arr f hf
        · intro obj f _ hwf hf
          exact defaultTransformer_map_tame m obj f hwf hf
      exact
        { discriminator := @methodOf_tame transformDiscriminatorM j tameBody_arg
          example2 := @methodOf_tame transformExampleM j tameBody_arg
          example3 := @methodOf_tame transformExample3M j tameBody_arg
          externalDocs := @methodOf_tame transformExternalDocsM j tameBody_arg
          xml := @methodOf_tame transformXmlM j tameBody_arg
          schema := methodOf_tame (transformSchemaM_tame hw hsub)
          schemaProperties :=
            methodOf_tame (transformSchemaPropertiesM_tame hw hsub)
          items := methodOf_tame (transformItemsM_tame hw hsub)
          header := methodOf_tame (transformHeaderM_tame hw hsub)
          encoding := methodOf_tame (transformEncodingM_tame hw hsub)
          link := methodOf_tame (transformLinkM_tame hw hsub)
          mediaType := methodOf_tame (transformMediaTypeM_tame hw hsub)
          response := methodOf_tame (transformResponseM_tame hw hsub)
          responses := methodOf_tame (transformResponsesM_tame hw hsub)
          callback := methodOf_tame (transformCallbackM_tame hw hsub)
          requestBody := methodOf_tame (transformRequestBodyM_tame hw hsub)
          parameter := methodOf_tame (transformParameterM_tame hw hsub)
          operation := methodOf_tame (transformOperationM_tame hw hsub)
          pathItem := methodOf_tame (transformPathItemM_tame hw hsub)
          paths := methodOf_tame (transformPathsM_tame hw hsub)
          components := methodOf_tame (transformComponentsM_tame hw hsub)
          serverVariable := @methodOf_tame transformServerVariableM j tameBody_arg
          server := methodOf_tame (transformServerM_tame hw hsub)
          oauthFlow := @methodOf_tame transformOAuthFlowM j tameBody_arg
          oauthFlows := methodOf_tame (transformOAuthFlowsM_tame hw hsub)
          securityScheme :=
            methodOf_tame (transformSecuritySchemeM_tame hw hsub)
          securityRequirement := @methodOf_tame transformSecurityRequirementM j tameBody_arg
          tag := methodOf_tame (transformTagM_tame hw hsub)
          contact := @methodOf_tame transformContactM j tameBody_arg
          license := @methodOf_tame transformLicenseM j tameBody_arg
          info := methodOf_tame (transformInfoM_tame hw hsub)
          openApi := methodOf_tame (transformOpenApiM_tame hw hsub) }

theorem fst_ok_of_tame {c : M Json} {j : Json} (h : TameVal c j)
    (s : TState) : (c s).1 = Except.ok j := by
  obtain ⟨w, hw⟩ := h s
  rw [hw]

/-- Claim C1: with all nested handlers left at their identity defaults,
every node-kind transform operation returns a value structurally equal
(deep-equal) to its well-formed input.  The fuel `n` only bounds the
modelled dispatch depth (the source recursion is unbounded); any fuel
above the input's size suffices. -/
theorem c1_identity_law (n : Nat) (j : Json) (s : TState)
    (hw : j.wf = true) (hn : j.size < n) :
    ((defaultTransformer n).transformOpenApi j s).1 = Except.ok j
    ∧ ((defaultTransformer n).transformInfo j s).1 = Except.ok j
    ∧ ((defaultTransformer n).transformContact j s).1 = Except.ok j
    ∧ ((defaultTransformer n).transformLicense j s).1 = Except.ok j
    ∧ ((defaultTransformer n).transformTag j s).1 = Except.ok j
    ∧ ((defaultTransformer n).transformExternalDocs j s).1 = Except.ok j
    ∧ ((defaultTransformer n).transformServer j s).1 = Except.ok j
    ∧ ((defaultTransformer n).transformServerVariable j s).1 = Except.ok j
    ∧ ((defaultTransformer n).transformComponents j s).1 = Except.ok j
    ∧ ((defaultTransformer n).transformPaths j s).1 = Except.ok j
    ∧ ((defaultTransformer n).transformPathItem j s).1 = Except.ok j
    ∧ ((defaultTransformer n).transformOperation j s).1 = Except.ok j
    ∧ ((defaultTransformer n).transformParameter j s).1 = Except.ok j
    ∧ ((defaultTransformer n).transformRequestBody j s).1 = Except.ok j
    ∧ ((defaultTransformer n).transformMediaType j s).1 = Except.ok j
    ∧ ((defaultTransformer n).transformEncoding j s).1 = Except.ok j
    ∧ ((defaultTransformer n).transformResponse j s).1 = Except.ok j
    ∧ ((defaultTransformer n).transformResponses j s).1 = Except.ok j
    ∧ ((defaultTransformer n).transformCallback j s).1 = Except.ok j
    ∧ ((defaultTransformer n).transformExample j s).1 = Except.ok j
    ∧ ((defaultTransformer n).transformExample3 j s).1 = Except.ok j
    ∧ ((defaultTransformer n).transformLink j s).1 = Except.ok j
    ∧ ((defaultTransformer n).transformHeader j s).1 = Except.ok j
    ∧ ((defaultTransformer n).transformSecurityScheme j s).1 = Except.ok j
    ∧ ((defaultTransformer n).transformSecurityRequirement j s).1
        = Except.ok j
    ∧ ((defaultTransformer n).transformOAuthFlows j s).1 = Except.ok j
    ∧ ((defaultTransformer n).transformOAuthFlow j s).1 = Except.ok j
    ∧ ((defaultTransformer n).transformSchema j s).1 = Except.ok j
    ∧ ((defaultTransformer n).transformSchemaProperties j s).1 = Except.ok j
    ∧ ((defaultTransformer n).transformItems j s).1 = Except.ok j
    ∧ ((defaultTransformer n).transformDiscriminator j s).1 = Except.ok j
    ∧ ((defaultTransformer n).transformXml j s).1 = Except.ok j := by
  have TM := tame_all n j hn hw
  exact ⟨fst_ok_of_tame TM.openApi s, fst_ok_of_tame TM.info s,
    fst_ok_of_tame TM.contact s, fst_ok_of_tame TM.license s,
    fst_ok_of_tame TM.tag s, fst_ok_of_tame TM.externalDocs s,
    fst_ok_of_tame TM.server s, fst_ok_of_tame TM.serverVariable s,
    fst_ok_of_tame TM.components s, fst_ok_of_tame TM.paths s,
    fst_ok_of_tame TM.pathItem s, fst_ok_of_tame TM.operation s,
    fst_ok_of_tame TM.parameter s, fst_ok_of_tame TM.requestBody s,
    fst_ok_of_tame TM.mediaType s, fst_ok_of_tame TM.encoding s,
    fst_ok_of_tame TM.response s, fst_ok_of_tame TM.responses s,
    fst_ok_of_tame TM.callback s, fst_ok_of_tame TM.example2 s,
    fst_ok_of_tame TM.example3 s, fst_ok_of_tame TM.link s,
    fst_ok_of_tame TM.header s, fst_ok_of_tame TM.securityScheme s,
    fst_ok_of_tame TM.securityRequirement s, fst_ok_of_tame TM.oauthFlows s,
    fst_ok_of_tame TM.oauthFlow s, fst_ok_of_tame TM.schema s,
    fst_ok_of_tame TM.schemaProperties s, fst_ok_of_tame TM.items s,
    fst_ok_of_tame TM.discriminator s, fst_ok_of_tame TM.xml s⟩

/-- Witness for C1: the hypotheses hold and the identity law follows at
a concrete well-formed document. -/
theorem c1_identity_law_witness :
    sampleDoc.wf = true ∧ sampleDoc.size < 64
    ∧ (((defaultTransformer 64).transformOpenApi sampleDoc
          { path := [], warns := [] }).1 = Except.ok sampleDoc
        ∧ ((defaultTransformer 64).transformSchema sampleDoc
          { path := [], warns := [] }).1 = Except.ok sampleDoc) :=
  ⟨by decide, by decide,
    (c1_identity_law 64 sampleDoc { path := [], warns := [] }
      (by decide) (by decide)).1,
    (c1_identity_law 64 sampleDoc { path := [], warns := [] }
      (by decide) (by decide)).2.2.2.2.2.2.2.2.2.2.2.2.2.2.2.2.2.2.2.2.2.2.2.2.2.2.2.1⟩

theorem replaceEach_append (needle : Char) (repl : List Char)
    (a b : List Char) :
    replaceEach needle repl (a ++ b)
      = replaceEach needle repl a ++ replaceEach needle repl b := by
  induction a with
  | nil => rfl
  | cons c rest ih => simp [replaceEach, ih, List.append_assoc]

theorem escapeName_eq_spec (p : String) : escapeName p = escapeNameSpec p := by
  simp only [escapeName, escapeNameSpec]
  congr 1
  induction p.data with
  | nil => rfl
  | cons c rest ih =>
    simp only [replaceEach, List.foldr]
    rw [replaceEach_append, ih]
    by_cases h1 : c = '~'
    · subst h1
      simp [replaceEach]
    · by_cases h2 : c = '/'
      · subst h2
        simp [replaceEach, h1]
      · simp [replaceEach, h1, h2]

/-- Claim C5: the pointer encoder produces `'/'` followed by the names,
each with `~` escaped to `~0` and then `/` to `~1` (equivalently: a
single left-to-right per-character pass), joined by `/`; the empty
sequence yields `"/"`, and the quoted examples hold. -/
theorem c5_pointer_encoder :
    (∀ propPath : List String,
      toJsonPointer propPath = toJsonPointerSpec propPath)
    ∧ toJsonPointer [] = "/"
    ∧ toJsonPointer ["a", "b"] = "/a/b"
    ∧ toJsonPointer ["a/b"] = "/a~1b"
    ∧ toJsonPointer ["a~b"] = "/a~0b"
    ∧ toJsonPointer ["a/~b"] = "/a~1~0b" := by
  refine ⟨?_, by rfl, by rfl, by rfl, by rfl, by rfl⟩
  intro propPath
  simp only [toJsonPointer, toJsonPointerSpec]
  rw [show escapeName = escapeNameSpec from funext escapeName_eq_spec]

theorem visitM_spy (g : Json → Json) (name : String) (v : Json)
    (s : TState) :
    visitM (spyHandler g) name v s
      = (Except.ok (g v),
         { path := s.path, warns := s.warns ++ ["handler invoked"] }) := by
  simp [visitM, spyHandler, warnM, mBind, mPure, List.getLast?_concat,
    List.dropLast_concat]

theorem mapLike_fold_spy (g : Json → Json) (skipExt : Bool) :
    ∀ (l : List (String × Json)) (acc : List (String × Json)) (s : TState),
    foldEntriesM (fun acc e =>
        if !e.2.isUndefined && (!skipExt || !e.1.startsWith "x-") then
          mBind (visitM (spyHandler g) e.1 e.2)
            (fun v => mPure (jsSet acc e.1 v))
        else
          mPure acc) (Json.obj acc) l s
      = (Except.ok (Json.obj (l.foldl (setEligible g skipExt) acc)),
         { path := s.path,
           warns := s.warns ++ (l.filter (fun e =>
             !e.2.isUndefined && (!skipExt || !e.1.startsWith "x-"))).map
               (fun _ => "handler invoked") }) := by
  intro l
  induction l with
  | nil =>
    intro acc s
    simp [foldEntriesM, mPure]
  | cons e rest ih =>
    intro acc s
    by_cases hc : (!e.2.isUndefined && (!skipExt || !e.1.startsWith "x-"))
        = true
    · have hstep : (mBind (visitM (spyHandler g) e.1 e.2)
          (fun v => mPure (jsSet (Json.obj acc) e.1 v))) s
          = (Except.ok (Json.obj (setFirst acc e.1 (g e.2))),
             { path := s.path, warns := s.warns ++ ["handler invoked"] }) := by
        rw [mBind_ok _ (visitM_spy g e.1 e.2 s)]
        simp [mPure, jsSet]
      simp only [foldEntriesM, hc, if_pos]
      rw [mBind_ok _ hstep, ih]
      simp [setEligible, hc, List.filter_cons, List.append_assoc]
    · have hc' := bool_false_of_not_true hc
      simp only [foldEntriesM, hc', Bool.false_eq_true, if_false]
      rw [mBind_ok _ (show mPure (Json.obj acc) s = (Except.ok (Json.obj acc), s) from rfl), ih]
      simp [setEligible, hc', List.filter_cons]

theorem setFirst_head_miss {hd : String × Json} {tl : List (String × Json)}
    {k : String} {v : Json} (h : hd.1 ≠ k) :
    setFirst (hd :: tl) k v = hd :: setFirst tl k v := by
  obtain ⟨k', w⟩ := hd
  simp only [setFirst]
  rw [if_neg h]

theorem foldl_setEligible_cons (g : Json → Json) (skipExt : Bool)
    {hd : String × Json} :
    ∀ (l : List (String × Json)) (tl : List (String × Json)),
    (∀ e ∈ l, e.1 ≠ hd.1) →
    l.foldl (setEligible g skipExt) (hd :: tl)
      = hd :: l.foldl (setEligible g skipExt) tl := by
  intro l
  induction l with
  | nil =>
    intro tl _
    rfl
  | cons f fs ih =>
    intro tl h
    have hf : f.1 ≠ hd.1 := h f (List.mem_cons_self _ _)
    have hstep : setEligible g skipExt (hd :: tl) f
        = hd :: setEligible g skipExt tl f := by
      simp only [setEligible]
      by_cases hc : (!f.2.isUndefined && (!skipExt || !f.1.startsWith "x-"))
          = true
      · rw [if_pos hc, if_pos hc, setFirst_head_miss (fun hh => hf hh.symm)]
      · rw [if_neg hc, if_neg hc]
    rw [List.foldl_cons, hstep, List.foldl_cons,
      ih (setEligible g skipExt tl f)
        (fun e he => h e (List.mem_cons_of_mem _ he))]

theorem foldl_setEligible_self (g : Json → Json) (skipExt : Bool) :
    ∀ entries : List (String × Json),
    nodupKeys (entryKeys entries) = true →
    entries.foldl (setEligible g skipExt) entries
      = mapLikeExpected g skipExt entries := by
  intro entries
  induction entries with
  | nil =>
    intro _
    rfl
  | cons e rest ih =>
    intro h
    simp only [entryKeys, List.map_cons, nodupKeys, Bool.and_eq_true,
      Bool.not_eq_true'] at h
    have hne : ∀ f ∈ rest, f.1 ≠ e.1 := by
      intro f hf heq
      have hmem : e.1 ∈ rest.map Prod.fst := by
        rw [← heq]
        exact List.mem_map_of_mem Prod.fst hf
      have hc : (rest.map Prod.fst).contains e.1 = true :=
        List.elem_eq_true_of_mem hmem
      rw [h.1] at hc
      exact Bool.false_ne_true hc
    have hhead : setEligible g skipExt (e :: rest) e
        = (e.1, if !e.2.isUndefined && (!skipExt || !e.1.startsWith "x-")
            then g e.2 else e.2) :: rest := by
      obtain ⟨k, v⟩ := e
      simp only [setEligible]
      by_cases hc : (!(k, v).2.isUndefined
          && (!skipExt || !(k, v).1.startsWith "x-")) = true
      · rw [if_pos hc, if_pos hc]
        simp [setFirst]
      · rw [if_neg hc, if_neg hc]
    have hcons := @foldl_setEligible_cons g skipExt
      (e.1, if !e.2.isUndefined && (!skipExt || !e.1.startsWith "x-")
        then g e.2 else e.2) rest rest (fun f hf => hne f hf)
    rw [List.foldl_cons, hhead, hcons, ih h.2]
    simp [mapLikeExpected]

/-- Claim C2: on a non-null, non-array object the keyed-map adapter
returns a newly built object (`Ret.new`) with the same keys in the same
order, in which each entry whose value is not `undefined` and whose key
passes the extension policy holds the handler result for its value,
every other entry is copied verbatim, and the handler is invoked exactly
once per eligible entry (the warn log of the instrumented handler
records one entry per invocation, in order); the path is restored. -/
theorem c2_map_adapter (g : Json → Json) (entries : List (String × Json))
    (logName : String) (skipExtensions : Bool) (s : TState)
    (hnd : nodupKeys (entryKeys entries) = true) :
    transformMapLikeM (Json.obj entries) (spyHandler g) logName
        skipExtensions s
      = (Except.ok (Ret.new
          (Json.obj (mapLikeExpected g skipExtensions entries))),
         { path := s.path,
           warns := s.warns ++ (entries.filter (fun e =>
             !e.2.isUndefined
               && (!skipExtensions || !e.1.startsWith "x-"))).map
               (fun _ => "handler invoked") })
    ∧ entryKeys (mapLikeExpected g skipExtensions entries)
        = entryKeys entries := by
  constructor
  · simp only [transformMapLikeM]
    rw [mBind_ok _ (mapLike_fold_spy g skipExtensions entries entries s)]
    rw [foldl_setEligible_self g skipExtensions entries hnd]
    rfl
  · simp [mapLikeExpected, entryKeys]

/-- Witness for C2: the extension-key scenario `{ "x-test": 1 }` with
extensions included — the handler runs exactly once, with argument `1`
(second run: a handler wrapping its argument shows the argument), and
the identity handler reproduces the input. -/
theorem c2_map_adapter_witness :
    nodupKeys (entryKeys [("x-test", Json.num 1)]) = true
    ∧ transformMapLikeM (Json.obj [("x-test", Json.num 1)])
        (spyHandler id) "Map" false { path := [], warns := [] }
      = (Except.ok (Ret.new (Json.obj [("x-test", Json.num 1)])),
         { path := [], warns := ["handler invoked"] })
    ∧ transformMapLikeM (Json.obj [("x-test", Json.num 1)])
        (spyHandler (fun v => Json.arr [some v])) "Map" false
        { path := [], warns := [] }
      = (Except.ok (Ret.new
          (Json.obj [("x-test", Json.arr [some (Json.num 1)])])),
         { path := [], warns := ["handler invoked"] }) := by
  refine ⟨by rfl, ?_, ?_⟩
  · have h := (c2_map_adapter id [("x-test", Json.num 1)] "Map" false
      { path := [], warns := [] } (by rfl)).1
    rw [h]
    rfl
  · have h := (c2_map_adapter (fun v => Json.arr [some v])
      [("x-test", Json.num 1)] "Map" false
      { path := [], warns := [] } (by rfl)).1
    rw [h]
    rfl

theorem visitM_err_none {m : Json → M Json} {name : String} {v : Json}
    {s : TState} {e : JsError}
    (hrun : m v { s with path := s.path ++ [name] }
      = (Except.error (Thrown.err e), { s with path := s.path ++ [name] }))
    (hp : e.transformPath = none) :
    visitM m name v s
      = (Except.error (Thrown.err
          { message := e.message ++ " (while transforming "
              ++ toJsonPointer (s.path ++ [name]) ++ ")"
            transformPath := some (s.path ++ [name]) }), s) := by
  simp only [visitM]
  rw [hrun]
  simp [hp, List.dropLast_concat]

theorem visitM_err_some {m : Json → M Json} {name : String} {v : Json}
    {s : TState} {e : JsError} {p : List String}
    (hrun : m v { s with path := s.path ++ [name] }
      = (Except.error (Thrown.err e), { s with path := s.path ++ [name] }))
    (hp : e.transformPath = some p) :
    visitM m name v s = (Except.error (Thrown.err e), s) := by
  simp only [visitM]
  rw [hrun]
  simp [hp, List.dropLast_concat]

theorem visitM_val {m : Json → M Json} {name : String} {v : Json}
    {s : TState} {w : Json}
    (hrun : m v { s with path := s.path ++ [name] }
      = (Except.error (Thrown.val w), { s with path := s.path ++ [name] })) :
    visitM m name v s = (Except.error (Thrown.val w), s) := by
  simp only [visitM]
  rw [hrun]
  simp [List.dropLast_concat]

/-- Claim C8: in nested Path-Tracker frames around a throwing handler,
exactly the innermost frame annotates an `Error` carrying no own
`transformPath` (with the full path at the point of failure, and one
pointer appended to the message); every enclosing frame re-throws it
unmodified, an `Error` already carrying path context propagates
untouched, and a non-`Error` thrown value is never annotated.  In every
case the path stack is fully restored. -/
theorem c8_single_annotation (names : List String) (hne : names ≠ [])
    (v : Json) (s : TState) (e : JsError) (w : Json) :
    (e.transformPath = none →
      nestVisits names (throwingHandler (Thrown.err e)) v s
        = (Except.error (Thrown.err
            { message := e.message ++ " (while transforming "
                ++ toJsonPointer (s.path ++ names) ++ ")"
              transformPath := some (s.path ++ names) }), s))
    ∧ (∀ p, e.transformPath = some p →
      nestVisits names (throwingHandler (Thrown.err e)) v s
        = (Except.error (Thrown.err e), s))
    ∧ nestVisits names (throwingHandler (Thrown.val w)) v s
        = (Except.error (Thrown.val w), s) := by
  induction names generalizing v s with
  | nil => exact absurd rfl hne
  | cons n rest ih =>
    cases rest with
    | nil =>
      refine ⟨?_, ?_, ?_⟩
      · intro hp
        have hrun : nestVisits [] (throwingHandler (Thrown.err e)) v
            { s with path := s.path ++ [n] }
            = (Except.error (Thrown.err e),
               { s with path := s.path ++ [n] }) := rfl
        exact visitM_err_none hrun hp
      · intro p hp
        have hrun : nestVisits [] (throwingHandler (Thrown.err e)) v
            { s with path := s.path ++ [n] }
            = (Except.error (Thrown.err e),
               { s with path := s.path ++ [n] }) := rfl
        exact visitM_err_some hrun hp
      · have hrun : nestVisits [] (throwingHandler (Thrown.val w)) v
            { s with path := s.path ++ [n] }
            = (Except.error (Thrown.val w),
               { s with path := s.path ++ [n] }) := rfl
        exact visitM_val hrun
    | cons n2 rest2 =>
      have ihh := ih (by simp) v { s with path := s.path ++ [n] }
      refine ⟨?_, ?_, ?_⟩
      · intro hp
        show visitM (nestVisits (n2 :: rest2) (throwingHandler
          (Thrown.err e))) n v s = _
        rw [visitM_err_some (ihh.1 hp) rfl]
        simp [List.append_assoc]
      · intro p hp
        show visitM (nestVisits (n2 :: rest2) (throwingHandler
          (Thrown.err e))) n v s = _
        rw [visitM_err_some (ihh.2.1 p hp) hp]
      · show visitM (nestVisits (n2 :: rest2) (throwingHandler
          (Thrown.val w))) n v s = _
        rw [visitM_val ihh.2.2]

/-- Witness for C8 at concrete frames and thrown values. -/
theorem c8_single_annotation_witness :
    nestVisits ["a", "b"] (throwingHandler (Thrown.err
        { message := "boom", transformPath := none })) Json.null
        { path := [], warns := [] }
      = (Except.error (Thrown.err
          { message := "boom (while transforming /a/b)"
            transformPath := some ["a", "b"] }),
         { path := [], warns := [] })
    ∧ nestVisits ["a", "b"] (throwingHandler (Thrown.err
        { message := "boom", transformPath := some ["x"] })) Json.null
        { path := [], warns := [] }
      = (Except.error (Thrown.err
          { message := "boom", transformPath := some ["x"] }),
         { path := [], warns := [] })
    ∧ nestVisits ["a", "b"] (throwingHandler (Thrown.val (Json.num 7)))
        Json.null { path := [], warns := [] }
      = (Except.error (Thrown.val (Json.num 7)),
         { path := [], warns := [] }) := by
  have h := c8_single_annotation ["a", "b"] (by simp) Json.null
    { path := [], warns := [] } { message := "boom", transformPath := none }
    (Json.num 7)
  have h2 := c8_single_annotation ["a", "b"] (by simp) Json.null
    { path := [], warns := [] }
    { message := "boom", transformPath := some ["x"] } (Json.num 7)
  refine ⟨?_, ?_, ?_⟩
  · rw [h.1 rfl]
    rfl
  · rw [h2.2.1 ["x"] rfl]
  · rw [h.2.2]

theorem mkTransformer_schema_override {o : Overrides} {f : Json → M Json}
    (h : o.transformSchema = some f) (n : Nat) :
    (mkTransformer o n).transformSchema = f := by
  cases n <;> simp [mkTransformer, h]

theorem isUndefined_undef : Json.undef.isUndefined = true := rfl

theorem isUndefined_obj (entries : List (String × Json)) :
    (Json.obj entries).isUndefined = false := rfl

/-- Claim C3: when the handler dispatched for the value at key `foo` of
a schema's `properties` map (here: an overridden `transformSchema`, with
the default body run on the parent schema) throws a plain `Error`
carrying no path context, the error propagating out of the schema
transform records `transformPath = ["properties", "foo"]` and its
message contains the pointer `/properties/foo`. -/
theorem c3_properties_failure_path (n : Nat) (msg : String) (fooVal : Json)
    (hfoo : fooVal.isUndefined = false) (warns : List String) :
    (transformSchemaM
        (mkTransformer
          { transformSchema := some (throwingHandler (plainError msg)) }
          (n + 1))
        (Json.obj [("properties", Json.obj [("foo", fooVal)])])
        { path := [], warns := warns }
      = (Except.error (Thrown.err
          { message := msg ++ " (while transforming "
              ++ toJsonPointer ["properties", "foo"] ++ ")"
            transformPath := some ["properties", "foo"] }),
         { path := [], warns := warns }))
    ∧ toJsonPointer ["properties", "foo"] = "/properties/foo"
    ∧ (∃ pre post,
        msg ++ " (while transforming "
            ++ toJsonPointer ["properties", "foo"] ++ ")"
          = pre ++ "/properties/foo" ++ post) := by
  refine ⟨?_, rfl, ⟨msg ++ " (while transforming ", ")", ?_⟩⟩
  · simp [transformSchemaM, mkTransformer, mkTransformer_schema_override,
      transformSchemaPropertiesM, transformMapLikeM, transformMapLikeFn,
      methodOf, foldEntriesM, visitField, visitM, mBind, mPure, mThrow,
      warnM, jsGet, lookupFirst, jsSet, setFirst, isUndefined_undef,
      isUndefined_obj, throwingHandler, plainError, nonObjectGuard,
      Json.typeofIsObject, Json.isNull, Json.isArr, hfoo]
  · rw [show toJsonPointer ["properties", "foo"] = "/properties/foo"
      from rfl]

/-- Witness for C3 at a concrete handler error. -/
theorem c3_properties_failure_path_witness :
    (Json.obj []).isUndefined = false
    ∧ transformSchemaM
        (mkTransformer
          { transformSchema := some (throwingHandler (plainError "boom")) }
          (0 + 1))
        (Json.obj [("properties", Json.obj [("foo", Json.obj [])])])
        { path := [], warns := [] }
      = (Except.error (Thrown.err
          { message := "boom (while transforming /properties/foo)"
            transformPath := some ["properties", "foo"] }),
         { path := [], warns := [] }) := by
  refine ⟨rfl, ?_⟩
  have h := (c3_properties_failure_path 0 "boom" (Json.obj []) rfl []).1
  rw [h]
  rfl

/-- Claim C9 evaluated on the code: an overridden `transformSchema`
throwing a plain `Error` while the default body transforms the value of
the `not` field yields an error whose recorded path is `["subSchema"]`
(the literal string passed to `visit` by the `['if','then','else','not']`
loop) with pointer `/subSchema` in the message — not `["not"]` / `/not`
as the claim states. -/
theorem c9_subschema_path_bug (n : Nat) (msg : String) (subVal : Json)
    (hsub : subVal.isUndefined = false) (warns : List String) :
    (transformSchemaM
        (mkTransformer
          { transformSchema := some (throwingHandler (plainError msg)) }
          (n + 1))
        (Json.obj [("not", subVal)])
        { path := [], warns := warns }
      = (Except.error (Thrown.err
          { message := msg ++ " (while transforming "
              ++ toJsonPointer ["subSchema"] ++ ")"
            transformPath := some ["subSchema"] }),
         { path := [], warns := warns }))
    ∧ toJsonPointer ["subSchema"] = "/subSchema"
    ∧ (["subSchema"] : List String) ≠ ["not"] := by
  refine ⟨?_, rfl, by simp⟩
  simp [transformSchemaM, mkTransformer, mkTransformer_schema_override,
    transformSchemaPropertiesM, transformMapLikeM, transformMapLikeFn,
    methodOf, foldEntriesM, visitField, visitM, mBind, mPure, mThrow,
    warnM, jsGet, lookupFirst, jsSet, setFirst, isUndefined_undef,
    isUndefined_obj, throwingHandler, plainError, nonObjectGuard,
    Json.typeofIsObject, Json.isNull, Json.isArr, hsub]

/-- Witness for C9 at a concrete handler error. -/
theorem c9_subschema_path_bug_witness :
    (Json.obj []).isUndefined = false
    ∧ transformSchemaM
        (mkTransformer
          { transformSchema := some (throwingHandler (plainError "boom")) }
          (0 + 1))
        (Json.obj [("not", Json.obj [])])
        { path := [], warns := [] }
      = (Except.error (Thrown.err
          { message := "boom (while transforming /subSchema)"
            transformPath := some ["subSchema"] }),
         { path := [], warns := [] }) := by
  refine ⟨rfl, ?_⟩
  have h := (c9_subschema_path_bug 0 "boom" (Json.obj []) rfl []).1
  rw [h]
  rfl

/-- Claim C4 evaluated on the code: with `transformContact` overridden to
return a changed value, `transformInfo` on `{ contact: {} }` still
returns its argument itself (`Ret.arg`): the method builds `newInfo`
with the delegated results but its final statement is `return info`, so
the handler result does not appear in the returned value. -/
theorem c4_transforminfo_discard_bug (t : Transformer)
    (hc : t.transformContact = fun _ => mPure (Json.str "CHANGED"))
    (s : TState) :
    transformInfoM t (Json.obj [("contact", Json.obj [])]) s
      = (Except.ok Ret.arg, s)
    ∧ methodOf (transformInfoM t) (Json.obj [("contact", Json.obj [])]) s
      = (Except.ok (Json.obj [("contact", Json.obj [])]), s)
    ∧ jsGet (Json.obj [("contact", Json.obj [])]) "contact"
        ≠ Json.str "CHANGED" := by
  refine ⟨?_, ?_, ?_⟩
  · simp [transformInfoM, visitField, visitM, mBind, mPure, jsGet,
      lookupFirst, jsSet, setFirst, isUndefined_undef, isUndefined_obj,
      nonObjectGuard, Json.typeofIsObject, Json.isNull, Json.isArr, hc,
      List.getLast?_concat, List.dropLast_concat]
  · simp [methodOf, transformInfoM, visitField, visitM, mBind, mPure,
      jsGet, lookupFirst, jsSet, setFirst, isUndefined_undef,
      isUndefined_obj, nonObjectGuard, Json.typeofIsObject, Json.isNull,
      Json.isArr, hc, List.getLast?_concat, List.dropLast_concat, deref]
  · simp [jsGet, lookupFirst]

/-- Witness for C4 with the override built from `mkTransformer`. -/
theorem c4_transforminfo_discard_bug_witness :
    (mkTransformer
        { transformContact := some (fun _ => mPure (Json.str "CHANGED")) }
        1).transformContact = (fun _ => mPure (Json.str "CHANGED"))
    ∧ methodOf (transformInfoM (mkTransformer
        { transformContact := some (fun _ => mPure (Json.str "CHANGED")) }
        1)) (Json.obj [("contact", Json.obj [])]) { path := [], warns := [] }
      = (Except.ok (Json.obj [("contact", Json.obj [])]),
         { path := [], warns := [] }) := by
  refine ⟨rfl, ?_⟩
  exact (c4_transforminfo_discard_bug
    (mkTransformer
      { transformContact := some (fun _ => mPure (Json.str "CHANGED")) } 1)
    rfl { path := [], warns := [] }).2.1

/-- Claim C6 evaluated on the code: `transformArray` is
`arr.map(transform, this)`, so the handler runs for every present
element — including elements whose value is `undefined`, which the claim
(and the package's own test suite) say are skipped; holes are skipped
and preserved, and non-arrays warn once and are returned unchanged. -/
theorem c6_array_adapter_undefined_bug (s : TState) :
    transformArrayM
        (Json.arr [some (Json.num 1), some Json.undef, some (Json.num 2)])
        (spyHandler (fun _ => Json.bool true)) s
      = (Except.ok (Ret.new (Json.arr
          [some (Json.bool true), some (Json.bool true),
           some (Json.bool true)])),
         { path := s.path,
           warns := s.warns ++ ["handler invoked", "handler invoked",
             "handler invoked"] })
    ∧ transformArrayM (Json.arr [some (Json.num 1), none, some (Json.num 2)])
        (spyHandler (fun _ => Json.bool true)) s
      = (Except.ok (Ret.new (Json.arr
          [some (Json.bool true), none, some (Json.bool true)])),
         { path := s.path,
           warns := s.warns ++ ["handler invoked", "handler invoked"] })
    ∧ (∀ arr handler, arr.isArr = false →
        transformArrayM arr handler s
          = (Except.ok Ret.arg,
             { s with warns := s.warns ++ ["Ignoring non-Array"] })) := by
  refine ⟨?_, ?_, ?_⟩
  · simp [transformArrayM, mapArrayM, spyHandler, mBind, mPure, warnM]
  · simp [transformArrayM, mapArrayM, spyHandler, mBind, mPure, warnM]
  · intro arr handler ha
    cases arr <;> simp_all [transformArrayM, Json.isArr, mBind, mPure,
      warnM]

/-- Witness for C6's non-array branch at a concrete input. -/
theorem c6_array_adapter_undefined_bug_witness :
    Json.null.isArr = false
    ∧ transformArrayM Json.null (spyHandler id) { path := [], warns := [] }
      = (Except.ok Ret.arg,
         { path := [], warns := ["Ignoring non-Array"] }) := by
  refine ⟨rfl, ?_⟩
  have h := (c6_array_adapter_undefined_bug
    { path := [], warns := [] }).2.2 Json.null (spyHandler id) rfl
  rw [h]
  rfl

/-- Counterexample to Claim C7 as stated: `transformSchema` applied to
`null` does emit a diagnostic through the reporting hook (one call of
`warn` with "Ignoring non-object Schema"), while the claim says no
diagnostic is emitted. -/
theorem c7_scalar_diagnostic_counterexample :
    ((defaultTransformer 1).transformSchema Json.null
        { path := [], warns := [] }).2.warns
      = ["Ignoring non-object Schema"]
    ∧ ((defaultTransformer 1).transformSchema Json.null
        { path := [], warns := [] }).2.warns ≠ [] := by
  refine ⟨rfl, ?_⟩
  intro h
  rw [show ((defaultTransformer 1).transformSchema Json.null
    { path := [], warns := [] }).2.warns
      = ["Ignoring non-object Schema"] from rfl] at h
  cases h

/-- Claim C7 as amended: scalar inputs (`undefined`, `null`, booleans,
numbers, strings) are returned unchanged by the object-expecting
operations, but each such call emits exactly one
`Ignoring non-object ...` diagnostic through the reporting hook — except
`transformSchema` on booleans, which are valid schemas and emit none. -/
theorem c7_scalar_passthrough_amended (n : Nat) (v : Json) (s : TState)
    (hv : isScalarInput v = true) :
    ((defaultTransformer (n + 1)).transformInfo v s
      = (Except.ok v,
         { s with warns := s.warns ++ ["Ignoring non-object Info"] }))
    ∧ ((defaultTransformer (n + 1)).transformResponse v s
      = (Except.ok v,
         { s with warns := s.warns ++ ["Ignoring non-object Response"] }))
    ∧ (v.isBool = false →
        (defaultTransformer (n + 1)).transformSchema v s
          = (Except.ok v,
             { s with warns := s.warns ++ ["Ignoring non-object Schema"] }))
    ∧ (v.isBool = true →
        (defaultTransformer (n + 1)).transformSchema v s
          = (Except.ok v, s)) := by
  cases v <;>
    simp_all [defaultTransformer, mkTransformer, methodOf, transformInfoM,
      transformResponseM, transformSchemaM, isScalarInput, Json.isBool,
      nonObjectGuard, Json.typeofIsObject, Json.isNull, Json.isArr,
      mBind, mPure, warnM, deref]

/-- Witness for the amended C7 at `null`. -/
theorem c7_scalar_passthrough_amended_witness :
    isScalarInput Json.null = true
    ∧ (defaultTransformer 3).transformInfo Json.null
        { path := [], warns := [] }
      = (Except.ok Json.null,
         { path := [], warns := ["Ignoring non-object Info"] }) := by
  refine ⟨rfl, ?_⟩
  have h := (c7_scalar_passthrough_amended 2 Json.null
    { path := [], warns := [] } rfl).1
  rw [h]
  rfl

/-- Claim C10: each of the seven single-recursion-field handlers, given
a non-null non-array object whose driving field is `undefined`, returns
its argument itself (`Ret.arg`: the same reference, not a shallow copy),
with no state change. -/
theorem c10_identity_reference (j : Json)
    (hobj : nonObjectGuard j = false) :
    ((jsGet j "externalDocs").isUndefined = true →
      ∀ t s, transformTagM t j s = (Except.ok Ret.arg, s))
    ∧ ((jsGet j "content").isUndefined = true →
      ∀ t s, transformRequestBodyM t j s = (Except.ok Ret.arg, s))
    ∧ ((jsGet j "variables").isUndefined = true →
      ∀ t s, transformServerM t j s = (Except.ok Ret.arg, s))
    ∧ ((jsGet j "headers").isUndefined = true →
      ∀ t s, transformEncodingM t j s = (Except.ok Ret.arg, s))
    ∧ ((jsGet j "server").isUndefined = true →
      ∀ t s, transformLinkM t j s = (Except.ok Ret.arg, s))
    ∧ ((jsGet j "flows").isUndefined = true →
      ∀ t s, transformSecuritySchemeM t j s = (Except.ok Ret.arg, s))
    ∧ ((jsGet j "items").isUndefined = true →
      ∀ t s, transformItemsM t j s = (Except.ok Ret.arg, s)) := by
  refine ⟨?_, ?_, ?_, ?_, ?_, ?_, ?_⟩ <;>
    intro hu t s <;>
    simp [transformTagM, transformRequestBodyM, transformServerM,
      transformEncodingM, transformLinkM, transformSecuritySchemeM,
      transformItemsM, hobj, hu, mPure]

/-- Witness for C10 at a concrete tag-like object with no recursion
fields. -/
theorem c10_identity_reference_witness :
    nonObjectGuard (Json.obj [("name", Json.str "x")]) = false
    ∧ transformTagM (defaultTransformer 1)
        (Json.obj [("name", Json.str "x")]) { path := [], warns := [] }
      = (Except.ok Ret.arg, { path := [], warns := [] })
    ∧ transformItemsM (defaultTransformer 1)
        (Json.obj [("name", Json.str "x")]) { path := [], warns := [] }
      = (Except.ok Ret.arg, { path := [], warns := [] }) := by
  have h := c10_identity_reference (Json.obj [("name", Json.str "x")]) rfl
  exact ⟨rfl, h.1 rfl (defaultTransformer 1) { path := [], warns := [] },
    h.2.2.2.2.2.2 rfl (defaultTransformer 1) { path := [], warns := [] }⟩
